import Mathlib

/-!
Shallow embedding of the core statistical and orchestration code of the
fishtest server (`fishtest/stats/LLRcalc.py`, `fishtest/stats/stat_util.py`,
`fishtest/util.py`, `fishtest/rundb.py`), together with theorems settling
the frozen claims about it.

Modelling conventions.

* Python floats are modelled as real numbers (`ℝ`); quantities that the
  server only ever stores and compares exactly (counts, SPSA parameter
  values) are modelled as `ℕ`, `ℤ` or `ℚ`.
* Python dictionaries with optional keys become structures with `Option`
  fields; `del d[k]` becomes setting the field to `none`.
* External library calls that are not part of this repository are taken as
  parameters: the chi-squared cumulative distribution function of SciPy is
  a `cdf : ℝ → ℕ → ℝ` argument, and the root finding of
  `scipy.optimize.brentq` is idealized as exact root finding (see `mleX`).
-/

set_option maxRecDepth 8000

noncomputable section

namespace LLRcalc

open Classical

/-- `stats pdf` from `LLRcalc.py`: the expectation value `s` and variance
`var` of a discrete distribution given as a list of
`(value, probability)` pairs.  The input-validation asserts of the source
(which raise on malformed input) are not modelled. -/
def stats (pdf : List (ℝ × ℝ)) : ℝ × ℝ :=
  let s := (pdf.map (fun vp => vp.2 * vp.1)).sum
  let var := (pdf.map (fun vp => vp.2 * (vp.1 - s) ^ 2)).sum
  (s, var)

/-- The function handed to `scipy.optimize.brentq` inside `MLE`:
`f(x) = Σ p·(a−s)/(1+x·(a−s))`. -/
def mleF (pdf : List (ℝ × ℝ)) (s x : ℝ) : ℝ :=
  (pdf.map (fun ap => ap.2 * (ap.1 - s) / (1 + x * (ap.1 - s)))).sum

/-- The root returned by `scipy.optimize.brentq` in `MLE`: a root of
`mleF pdf s` inside the bracket `[l+ε, u−ε]` with `l = −1/(w−s)`,
`u = 1/(s−v)`, `ε = 1e−9`, where `v` and `w` are the first and last
support points of `pdf`.  Brent root finding (an external SciPy routine)
is idealized as exact; on the inputs appearing in the claims the root in
the bracket is unique, which pins the value down. -/
def mleX (pdf : List (ℝ × ℝ)) (s : ℝ) : ℝ :=
  let v := pdf.headI.1
  let w := (pdf.getLastD (0, 0)).1
  let l := -1 / (w - s)
  let u := 1 / (s - v)
  if h : ∃ x, x ∈ Set.Icc (l + 1e-9) (u - 1e-9) ∧ mleF pdf s x = 0 then h.choose
  else 0

/-- `MLE pdf s` from `LLRcalc.py`: the maximum likelihood estimate
`[(a, p/(1+x·(a−s))) for a,p in pdf]` for a discrete distribution with
expectation value `s`.  The post-hoc validation asserts of the source are
not modelled. -/
def MLE (pdf : List (ℝ × ℝ)) (s : ℝ) : List (ℝ × ℝ) :=
  pdf.map (fun ap => (ap.1, ap.2 / (1 + mleX pdf s * (ap.1 - s))))

/-- `LLRjumps pdf s0 s1` from `LLRcalc.py`:
`[(log pdf1[i][1] − log pdf0[i][1], pdf[i][1]) for i in range(len(pdf))]`
where `pdf0 = MLE pdf s0` and `pdf1 = MLE pdf s1`. -/
def LLRjumps (pdf : List (ℝ × ℝ)) (s0 s1 : ℝ) : List (ℝ × ℝ) :=
  ((pdf.zip (MLE pdf s0)).zip (MLE pdf s1)).map
    (fun t => (Real.log t.2.2 - Real.log t.1.2.2, t.1.1.2))

/-- `LLR pdf s0 s1` from `LLRcalc.py`: the generalized log likelihood
ratio (divided by `N`) for `s=s1` versus `s=s0`, namely the expectation
of the jumps: `stats(LLRjumps(pdf,s0,s1))[0]`. -/
def LLR (pdf : List (ℝ × ℝ)) (s0 s1 : ℝ) : ℝ :=
  (stats (LLRjumps pdf s0 s1)).1

/-- `LLR_alt2 pdf s0 s1` from `LLRcalc.py`: the quadratic approximation
`(s1−s0)·(2·s−s0−s1)/var/2` of the generalized log likelihood ratio. -/
def LLR_alt2 (pdf : List (ℝ × ℝ)) (s0 s1 : ℝ) : ℝ :=
  let sv := stats pdf
  (s1 - s0) * (2 * sv.1 - s0 - s1) / sv.2 / 2

/-- `L_(x) = 1/(1+10^(−x/400))` from `LLRcalc.py`. -/
def L_ (x : ℝ) : ℝ := 1 / (1 + (10 : ℝ) ^ (-x / 400))

/-- `regularize` from `LLRcalc.py`: mix in a small prior, replacing zero
entries by `ε = 1e−3`. -/
def regularize (l : List ℝ) : List ℝ :=
  l.map (fun v => if v = 0 then 1e-3 else v)

/-- `results_to_pdf` from `LLRcalc.py`: the number of samples `N` of the
regularized results together with the empirical pdf on the support
`{i/(len−1)}`. -/
def results_to_pdf (results : List ℝ) : ℝ × List (ℝ × ℝ) :=
  let results := regularize results
  let N := results.sum
  let l := results.length
  (N, (List.range l).map (fun (i : ℕ) => ((i : ℝ) / ((l : ℝ) - 1), results.getD i 0 / N)))

/-- `LLR_logistic elo0 elo1 results` from `LLRcalc.py`: the generalized
log likelihood ratio for a results frequency list (length 3 or 5), with
`elo0`, `elo1` in logistic elo. -/
def LLR_logistic (elo0 elo1 : ℝ) (results : List ℝ) : ℝ :=
  let s0 := L_ elo0
  let s1 := L_ elo1
  let Npdf := results_to_pdf results
  Npdf.1 * LLR Npdf.2 s0 s1

/-- Modelled from the spec: "return N·(s1−s0)(2·μ−s0−s1)/(2·σ²), where μ,
σ² are the empirical mean and variance of the pdf", with
`s_i = 1/(1+10^(−elo_i/400))` and the pdf obtained by regularizing and
normalizing the results vector.  This is the closed form that claim C1
asserts `LLR_logistic` agrees with. -/
def GLR_closed_form (elo0 elo1 : ℝ) (results : List ℝ) : ℝ :=
  let s0 := L_ elo0
  let s1 := L_ elo1
  let Npdf := results_to_pdf results
  let sv := stats Npdf.2
  Npdf.1 * (s1 - s0) * (2 * sv.1 - s0 - s1) / (2 * sv.2)

/-- Summing `p·(log c − log b)` over a triple zip is antisymmetric in the
last two lists. -/
lemma zip_jump_sum_antisymm (A B C : List (ℝ × ℝ)) :
    (((A.zip C).zip B).map
        (fun t => t.1.1.2 * (Real.log t.2.2 - Real.log t.1.2.2))).sum
      = -((((A.zip B).zip C).map
        (fun t => t.1.1.2 * (Real.log t.2.2 - Real.log t.1.2.2))).sum) := by
  induction A generalizing B C with
  | nil => simp
  | cons a A ih =>
    cases B with
    | nil => simp
    | cons b B =>
      cases C with
      | nil => simp
      | cons c C =>
        simp only [List.zip_cons_cons, List.map_cons, List.sum_cons]
        rw [ih]
        ring

/-- The first component of `stats` is the expectation. -/
lemma stats_fst (pdf : List (ℝ × ℝ)) :
    (stats pdf).1 = (pdf.map (fun vp => vp.2 * vp.1)).sum := rfl

/-- The expectation of the jumps changes sign when the two hypotheses are
swapped. -/
lemma LLR_swap (pdf : List (ℝ × ℝ)) (s0 s1 : ℝ) :
    LLR pdf s1 s0 = -LLR pdf s0 s1 := by
  simp only [LLR, stats_fst, LLRjumps, List.map_map]
  have h := zip_jump_sum_antisymm pdf (MLE pdf s0) (MLE pdf s1)
  simpa [Function.comp_def] using h

/-- `mleX` is pinned down when the bracket contains a unique root. -/
lemma mleX_eq_of_unique (pdf : List (ℝ × ℝ)) (s x₀ : ℝ)
    (h : ∀ y, (y ∈ Set.Icc (-1 / ((pdf.getLastD (0, 0)).1 - s) + 1e-9)
        (1 / (s - pdf.headI.1) - 1e-9) ∧ mleF pdf s y = 0) ↔ y = x₀) :
    mleX pdf s = x₀ := by
  simp only [mleX]
  split_ifs with hc
  · exact (h _).mp hc.choose_spec
  · exact absurd ⟨x₀, (h x₀).mpr rfl⟩ hc

/-- The empirical pdf of the regularized results `[6,7,6]`. -/
def pdfC1 : List (ℝ × ℝ) := [(0, 6 / 19), (1 / 2, 7 / 19), (1, 6 / 19)]

lemma results_to_pdf_C1 : results_to_pdf [(6 : ℝ), 7, 6] = (19, pdfC1) := by
  have hr : List.range 3 = [0, 1, 2] := rfl
  simp only [results_to_pdf, regularize, List.map_cons, List.map_nil, pdfC1, hr,
    List.length_cons, List.length_nil, List.sum_cons, List.sum_nil]
  norm_num [List.getD]

lemma L__zero : L_ 0 = 1 / 2 := by
  simp [L_]
  norm_num

lemma L__400 : L_ 400 = 10 / 11 := by
  have h : ((10 : ℝ) ^ (-(400 : ℝ) / 400)) = 1 / 10 := by
    rw [show (-(400 : ℝ) / 400) = ((-1 : ℤ) : ℝ) by norm_num, Real.rpow_intCast]
    norm_num
  simp only [L_, h]
  norm_num

lemma mleX_pdfC1_half : mleX pdfC1 (1 / 2) = 0 := by
  apply mleX_eq_of_unique
  intro y
  constructor
  · rintro ⟨hmem, hf⟩
    simp only [pdfC1, List.getLastD, List.headI] at hmem
    norm_num [Set.mem_Icc] at hmem
    obtain ⟨h1, h2⟩ := hmem
    simp only [mleF, pdfC1, List.map_cons, List.map_nil, List.sum_cons,
      List.sum_nil] at hf
    norm_num at hf
    have d1 : (2 : ℝ) + -y ≠ 0 := ne_of_gt (by linarith)
    have d3 : (2 : ℝ) + y ≠ 0 := ne_of_gt (by linarith)
    field_simp at hf
    linarith
  · rintro rfl
    constructor
    · simp only [pdfC1, List.getLastD, List.headI]
      norm_num [Set.mem_Icc]
    · simp only [mleF, pdfC1, List.map_cons, List.map_nil, List.sum_cons, List.sum_nil]
      norm_num

lemma mleX_pdfC1_s1 : mleX pdfC1 (10 / 11) = -209 / 30 := by
  apply mleX_eq_of_unique
  intro y
  constructor
  · rintro ⟨hmem, hf⟩
    simp only [pdfC1, List.getLastD, List.headI] at hmem
    norm_num [Set.mem_Icc] at hmem
    obtain ⟨h1, h2⟩ := hmem
    simp only [mleF, pdfC1, List.map_cons, List.map_nil, List.sum_cons,
      List.sum_nil] at hf
    norm_num at hf
    have d1 : (11 : ℝ) + -(y * 10) ≠ 0 := ne_of_gt (by linarith)
    have d2 : (22 : ℝ) + -(y * 9) ≠ 0 := ne_of_gt (by linarith)
    have d3 : (11 : ℝ) + y ≠ 0 := ne_of_gt (by linarith)
    field_simp at hf
    have hfac : (30 * y + 209) * (19 * y - 33) = 0 := by
      linear_combination hf / 2882946
    rcases mul_eq_zero.mp hfac with ho | ho
    · linarith
    · exfalso
      linarith
  · rintro rfl
    constructor
    · simp only [pdfC1, List.getLastD, List.headI]
      norm_num [Set.mem_Icc]
    · simp only [mleF, pdfC1, List.map_cons, List.map_nil, List.sum_cons, List.sum_nil]
      norm_num

lemma MLE_pdfC1_half : MLE pdfC1 (1 / 2) = pdfC1 := by
  rw [MLE, mleX_pdfC1_half]
  simp only [pdfC1, List.map_cons, List.map_nil]
  norm_num

lemma MLE_pdfC1_s1 :
    MLE pdfC1 (10 / 11) = [(0, 9 / 209), (1 / 2, 20 / 209), (1, 180 / 209)] := by
  rw [MLE, mleX_pdfC1_s1]
  simp only [pdfC1, List.map_cons, List.map_nil]
  norm_num

lemma stats_pdfC1 : stats pdfC1 = (1 / 2, 3 / 19) := by
  simp only [stats, pdfC1, List.map_cons, List.map_nil, List.sum_cons, List.sum_nil]
  norm_num

lemma LLR_logistic_C1_eval :
    LLR_logistic 0 400 [(6 : ℝ), 7, 6]
      = -(6 * Real.log (22 / 3)) - 7 * Real.log (77 / 20) + 6 * Real.log (30 / 11) := by
  have e1 : Real.log ((9 : ℝ) / 209) - Real.log (6 / 19) = -Real.log (22 / 3) := by
    rw [← Real.log_div (by norm_num) (by norm_num)]
    rw [show ((9 : ℝ) / 209) / (6 / 19) = ((22 : ℝ) / 3)⁻¹ by norm_num, Real.log_inv]
  have e2 : Real.log ((20 : ℝ) / 209) - Real.log (7 / 19) = -Real.log (77 / 20) := by
    rw [← Real.log_div (by norm_num) (by norm_num)]
    rw [show ((20 : ℝ) / 209) / (7 / 19) = ((77 : ℝ) / 20)⁻¹ by norm_num, Real.log_inv]
  have e3 : Real.log ((180 : ℝ) / 209) - Real.log (6 / 19) = Real.log (30 / 11) := by
    rw [← Real.log_div (by norm_num) (by norm_num)]
    norm_num
  rw [LLR_logistic, results_to_pdf_C1, L__zero, L__400]
  rw [show ((19 : ℝ), pdfC1).1 = (19 : ℝ) from rfl, show ((19 : ℝ), pdfC1).2 = pdfC1 from rfl]
  rw [LLR, LLRjumps, MLE_pdfC1_half, MLE_pdfC1_s1, stats_fst]
  simp only [pdfC1, List.zip_cons_cons, List.zip_nil_right, List.map_cons,
    List.map_nil, List.sum_cons, List.sum_nil]
  rw [e1, e2, e3]
  ring

lemma GLR_closed_form_C1_eval :
    GLR_closed_form 0 400 [(6 : ℝ), 7, 6] = -9747 / 968 := by
  simp only [GLR_closed_form, results_to_pdf_C1, L__zero, L__400, stats_pdfC1]
  norm_num

/-- Decomposition of `log (22/3)` into powers of `6/5` and a remainder. -/
lemma log_22_3_decomp :
    Real.log ((22 : ℝ) / 3)
      = 11 * Real.log (6 / 5) + Real.log (537109375 / 544195584) := by
  have h : ((22 : ℝ) / 3) = (6 / 5) ^ (11 : ℕ) * (537109375 / 544195584) := by
    norm_num
  rw [h, Real.log_mul (by positivity) (by norm_num), Real.log_pow]
  norm_num

/-- Decomposition of `log (77/20)` into powers of `6/5` and a remainder. -/
lemma log_77_20_decomp :
    Real.log ((77 : ℝ) / 20)
      = 7 * Real.log (6 / 5) + Real.log (1203125 / 1119744) := by
  have h : ((77 : ℝ) / 20) = (6 / 5) ^ (7 : ℕ) * (1203125 / 1119744) := by
    norm_num
  rw [h, Real.log_mul (by positivity) (by norm_num), Real.log_pow]
  norm_num

/-- Decomposition of `log (30/11)` into powers of `6/5` and a remainder. -/
lemma log_30_11_decomp :
    Real.log ((30 : ℝ) / 11)
      = 5 * Real.log (6 / 5) + Real.log (15625 / 14256) := by
  have h : ((30 : ℝ) / 11) = (6 / 5) ^ (5 : ℕ) * (15625 / 14256) := by
    norm_num
  rw [h, Real.log_mul (by positivity) (by norm_num), Real.log_pow]
  norm_num

/-- Rational upper bound on the exact generalized log likelihood ratio at
`elo0 = 0`, `elo1 = 400`, `results = [6,7,6]`. -/
lemma LLR_logistic_C1_upper :
    LLR_logistic 0 400 [(6 : ℝ), 7, 6] < -9747 / 968 - 1e-6 := by
  have hlg : (1 / 6 : ℝ) ≤ Real.log (6 / 5) := by
    have h := @Real.one_sub_inv_le_log_of_pos (6 / 5) (by norm_num)
    norm_num at h
    linarith
  have hr1 : (-7086209 / 537109375 : ℝ) ≤ Real.log (537109375 / 544195584) := by
    have h := @Real.one_sub_inv_le_log_of_pos ((537109375 : ℝ) / 544195584) (by norm_num)
    norm_num at h
    linarith
  have hr2 : (-83381 / 1203125 : ℝ) ≤ Real.log (1203125 / 1119744) := by
    have h := @Real.one_sub_inv_le_log_of_pos ((1203125 : ℝ) / 1119744) (by norm_num)
    norm_num at h
    linarith
  have hr3 : Real.log ((15625 : ℝ) / 14256) ≤ 1369 / 14256 := by
    have h := @Real.log_le_sub_one_of_pos ((15625 : ℝ) / 14256) (by norm_num)
    norm_num at h
    linarith
  rw [LLR_logistic_C1_eval, log_22_3_decomp, log_77_20_decomp, log_30_11_decomp]
  nlinarith [hlg, hr1, hr2, hr3]

end LLRcalc

/-- Claim C1 (counterexample): at `elo0 = 0`, `elo1 = 400`,
`results = [6,7,6]` the exact MLE-based generalized log likelihood ratio
computed by `LLR_logistic` differs from the closed-form approximation
`N·(s1−s0)(2·μ−s0−s1)/(2·σ²)` by far more than `1e−6` (the two values
are about `−15.37` and `−10.07`). -/
theorem claim_C1_counterexample :
    |LLRcalc.LLR_logistic 0 400 [(6 : ℝ), 7, 6]
      - LLRcalc.GLR_closed_form 0 400 [(6 : ℝ), 7, 6]| > 1e-6 := by
  rw [LLRcalc.GLR_closed_form_C1_eval]
  have h := LLRcalc.LLR_logistic_C1_upper
  rw [abs_of_neg (by linarith)]
  linarith

/-- Claim C1 (amended): the closed form
`N·(s1−s0)(2·μ−s0−s1)/(2·σ²)` of the spec equals `N` times the
`LLR_alt2` approximation of the source on every input; it is the
approximation `LLR_alt2`, not the exact MLE-based `LLR` used by
`LLR_logistic`, that realizes the closed form (`LLR_logistic` may differ
from it by more than `1e−6`, see the counterexample). -/
theorem claim_C1_amended (elo0 elo1 : ℝ) (results : List ℝ) :
    (LLRcalc.results_to_pdf results).1
        * LLRcalc.LLR_alt2 (LLRcalc.results_to_pdf results).2
            (LLRcalc.L_ elo0) (LLRcalc.L_ elo1)
      = LLRcalc.GLR_closed_form elo0 elo1 results := by
  simp only [LLRcalc.LLR_alt2, LLRcalc.GLR_closed_form]
  rw [div_div]
  ring

/-- Claim C9: swapping the two elo hypotheses negates the generalized log
likelihood ratio computed by `LLR_logistic` (exactly, hence in
particular up to `1e−9`). -/
theorem claim_C9 (elo0 elo1 : ℝ) (results : List ℝ)
    (hlen : results.length = 3 ∨ results.length = 5) :
    |LLRcalc.LLR_logistic elo1 elo0 results
      + LLRcalc.LLR_logistic elo0 elo1 results| ≤ 1e-9 := by
  simp only [LLRcalc.LLR_logistic]
  rw [LLRcalc.LLR_swap]
  norm_num

/-- Witness for claim C9 at `elo0 = 0`, `elo1 = 1`, `results = [1,1,1]`. -/
theorem claim_C9_witness :
    |LLRcalc.LLR_logistic 1 0 [(1 : ℝ), 1, 1]
      + LLRcalc.LLR_logistic 0 1 [(1 : ℝ), 1, 1]| ≤ 1e-9 :=
  claim_C9 0 1 [(1 : ℝ), 1, 1] (Or.inl rfl)

namespace StatUtil

open Classical

/-- `elo x` from `stat_util.py`: logistic score to elo, with the score
clamped away from `0` and `1` by `ε = 1e−3`. -/
def elo (x : ℝ) : ℝ :=
  let x := max x 1e-3
  let x := min x (1 - 1e-3)
  (-400) * Real.logb 10 (1 / x - 1)

/-- `L(x) = 1/(1+10^(−x/400.0))` from `stat_util.py`. -/
def L (x : ℝ) : ℝ := 1 / (1 + (10 : ℝ) ^ (-x / 400))

/-- `bayeselo_to_proba` from `stat_util.py`: the (loss, draw, win)
probabilities `(P[0], P[1], P[2])` for an elo in BayesELO relative to
`drawelo`. -/
def bayeselo_to_proba (elo drawelo : ℝ) : ℝ × ℝ × ℝ :=
  let P2 := 1 / (1 + (10 : ℝ) ^ ((-elo + drawelo) / 400))
  let P0 := 1 / (1 + (10 : ℝ) ^ ((elo + drawelo) / 400))
  (P0, 1 - P2 - P0, P2)

/-- `proba_to_bayeselo` from `stat_util.py`: recovers `(elo, drawelo)`
from the loss and win probabilities (the runtime assert of the source is
not modelled). -/
def proba_to_bayeselo (P : ℝ × ℝ × ℝ) : ℝ × ℝ :=
  (200 * Real.logb 10 (P.2.2 / P.1 * ((1 - P.1) / (1 - P.2.2))),
   200 * Real.logb 10 ((1 - P.1) / P.1 * ((1 - P.2.2) / P.2.2)))

/-- `draw_elo_calc` from `stat_util.py`: drawelo from trinomial
frequencies `(loss, draw, win)`. -/
def draw_elo_calc (R : List ℝ) : ℝ :=
  let N := R.sum
  let P := R.map (fun p => p / N)
  (proba_to_bayeselo (P.getD 0 0, P.getD 1 0, P.getD 2 0)).2

/-- `bayeselo_to_elo` from `stat_util.py`. -/
def bayeselo_to_elo (belo drawelo : ℝ) : ℝ :=
  let P := bayeselo_to_proba belo drawelo
  elo (P.2.2 + 0.5 * P.2.1)

/-- The `elo_model` field of an SPRT record. -/
inductive EloModel
  | BayesElo
  | logistic
deriving DecidableEq

/-- The `overshoot` sub-dictionary of an SPRT record
(`stat_util.SPRT`). -/
structure Overshoot where
  last_update : ℕ
  skipped_updates : ℕ
  ref0 : ℝ
  m0 : ℝ
  sq0 : ℝ
  ref1 : ℝ
  m1 : ℝ
  sq1 : ℝ

/-- The results dictionary `R` passed to `update_SPRT`: win, loss and
draw counts plus the optional pentanomial frequencies. -/
structure SprtResults where
  wins : ℕ
  losses : ℕ
  draws : ℕ
  pentanomial : Option (List ℕ)

/-- The SPRT dictionary of `stat_util.py`.  The optional keys
`overshoot` (removed with `del` on contract violation), and the audit
keys `illegal_update` and `lost_samples` (absent until written), are
`Option` fields. -/
structure Sprt where
  alpha : ℝ
  beta : ℝ
  elo0 : ℝ
  elo1 : ℝ
  elo_model : EloModel
  state : String
  llr : ℝ
  batch_size : ℕ
  lower_bound : ℝ
  upper_bound : ℝ
  overshoot : Option Overshoot
  illegal_update : Option ℕ
  lost_samples : Option ℕ

/-- First two lines of `update_SPRT`: recompute the bounds from α and β
(kept for backward compatibility with old tests). -/
def sprt_recompute_bounds (sprt : Sprt) : Sprt :=
  { sprt with
    lower_bound := Real.log (sprt.beta / (1 - sprt.alpha)),
    upper_bound := Real.log ((1 - sprt.beta) / sprt.alpha) }

/-- The logistic-elo bounds `(lelo0, lelo1)` used by `update_SPRT`: under
BayesElo the bounds are converted with an out-of-sample drawelo estimate,
under the logistic model they are used as is. -/
def sprt_lelo (R3 : List ℕ) (sprt : Sprt) : ℝ × ℝ :=
  match sprt.elo_model with
  | .BayesElo =>
      let R3r := LLRcalc.regularize (R3.map (fun n => (n : ℝ)))
      let drawelo := draw_elo_calc R3r
      (bayeselo_to_elo sprt.elo0 drawelo, bayeselo_to_elo sprt.elo1 drawelo)
  | .logistic => (sprt.elo0, sprt.elo1)

/-- The batch-size sanity check of `update_SPRT`: if the sample count is
not a multiple of `batch_size`, record the audit value and delete the
overshoot record (the contract is violated). -/
def sprt_sanity (num_samples : ℕ) (sprt : Sprt) : Sprt :=
  if num_samples % sprt.batch_size ≠ 0 then
    { sprt with illegal_update := some num_samples, overshoot := none }
  else sprt

/-- The overshoot-data update of `update_SPRT`: purge on a sample count
lower than `last_update`; ignore identical data; accumulate the downward
and upward excursions on the normal case `last_update + batch_size`; on
any other count reset the references and count the skipped updates. -/
def overshoot_step (num_samples batch_size : ℕ) (llr : ℝ) (sprt : Sprt) : Sprt :=
  match sprt.overshoot with
  | none => sprt
  | some o =>
    if num_samples < o.last_update then
      { sprt with lost_samples := some (o.last_update - num_samples), overshoot := none }
    else
      let o1 :=
        if num_samples = o.last_update then o
        else if num_samples = o.last_update + batch_size then
          let oa :=
            if llr < o.ref0 then
              { o with
                m0 := o.m0 + (llr - o.ref0)
                sq0 := o.sq0 + (llr - o.ref0) ^ 2
                ref0 := llr }
            else o
          if llr > oa.ref1 then
            { oa with
              m1 := oa.m1 + (llr - oa.ref1)
              sq1 := oa.sq1 + (llr - oa.ref1) ^ 2
              ref1 := llr }
          else oa
        else
          { o with
            ref0 := llr
            ref1 := llr
            skipped_updates := o.skipped_updates + (num_samples - o.last_update - 1) }
      { sprt with overshoot := some { o1 with last_update := num_samples } }

/-- The stop-condition check of `update_SPRT`: compare the llr against
the bounds adjusted by the dynamic overshoot corrections `o0` and
`o1`. -/
def sprt_decide (sprt : Sprt) : Sprt :=
  let o0 := match sprt.overshoot with
    | some o => if o.m0 ≠ 0 then -o.sq0 / o.m0 / 2 else 0
    | none => 0
  let o1 := match sprt.overshoot with
    | some o => if o.m1 ≠ 0 then o.sq1 / o.m1 / 2 else 0
    | none => 0
  if sprt.llr < sprt.lower_bound + o0 then { sprt with state := "rejected" }
  else if sprt.llr > sprt.upper_bound - o1 then { sprt with state := "accepted" }
  else { sprt with state := "" }

/-- `update_SPRT` before the final stop-condition check. -/
def sprt_pre (R : SprtResults) (sprt0 : Sprt) : Sprt :=
  let sprt := sprt_recompute_bounds sprt0
  let R3 : List ℕ := [R.losses, R.draws, R.wins]
  let lelo := sprt_lelo R3 sprt
  let R1 : List ℕ := R.pentanomial.getD R3
  let sprt := sprt_sanity R1.sum sprt
  let sprt := { sprt with
    llr := LLRcalc.LLR_logistic lelo.1 lelo.2 (R1.map (fun n => (n : ℝ))) }
  overshoot_step R1.sum sprt.batch_size sprt.llr sprt

/-- `update_SPRT R sprt` from `stat_util.py`, as a pure function from the
old SPRT record to the new one. -/
def update_SPRT (R : SprtResults) (sprt : Sprt) : Sprt :=
  sprt_decide (sprt_pre R sprt)

/-- The sample count used by `update_SPRT`: `sum(R_)`. -/
def num_samples_of (R : SprtResults) : ℕ :=
  (R.pentanomial.getD [R.losses, R.draws, R.wins]).sum

/-- The llr value computed by `update_SPRT`. -/
def sprt_llr_value (R : SprtResults) (s : Sprt) : ℝ :=
  LLRcalc.LLR_logistic (sprt_lelo [R.losses, R.draws, R.wins] s).1
    (sprt_lelo [R.losses, R.draws, R.wins] s).2
    ((R.pentanomial.getD [R.losses, R.draws, R.wins]).map (fun n => (n : ℝ)))

lemma sprt_lelo_congr (R3 : List ℕ) (s t : Sprt) (h0 : s.elo_model = t.elo_model)
    (h1 : s.elo0 = t.elo0) (h2 : s.elo1 = t.elo1) :
    sprt_lelo R3 s = sprt_lelo R3 t := by
  unfold sprt_lelo
  rw [h0, h1, h2]

lemma sprt_llr_value_congr (R : SprtResults) (s t : Sprt)
    (h0 : s.elo_model = t.elo_model) (h1 : s.elo0 = t.elo0) (h2 : s.elo1 = t.elo1) :
    sprt_llr_value R s = sprt_llr_value R t := by
  unfold sprt_llr_value
  rw [sprt_lelo_congr _ s t h0 h1 h2]

lemma sprt_sanity_elo_model (n : ℕ) (s : Sprt) :
    (sprt_sanity n s).elo_model = s.elo_model := by
  unfold sprt_sanity
  split_ifs <;> rfl

lemma sprt_sanity_elo0 (n : ℕ) (s : Sprt) :
    (sprt_sanity n s).elo0 = s.elo0 := by
  unfold sprt_sanity
  split_ifs <;> rfl

lemma sprt_sanity_elo1 (n : ℕ) (s : Sprt) :
    (sprt_sanity n s).elo1 = s.elo1 := by
  unfold sprt_sanity
  split_ifs <;> rfl

lemma sprt_sanity_alpha (n : ℕ) (s : Sprt) :
    (sprt_sanity n s).alpha = s.alpha := by
  unfold sprt_sanity
  split_ifs <;> rfl

lemma sprt_sanity_beta (n : ℕ) (s : Sprt) :
    (sprt_sanity n s).beta = s.beta := by
  unfold sprt_sanity
  split_ifs <;> rfl

lemma sprt_sanity_batch_size (n : ℕ) (s : Sprt) :
    (sprt_sanity n s).batch_size = s.batch_size := by
  unfold sprt_sanity
  split_ifs <;> rfl

lemma sprt_sanity_lower_bound (n : ℕ) (s : Sprt) :
    (sprt_sanity n s).lower_bound = s.lower_bound := by
  unfold sprt_sanity
  split_ifs <;> rfl

lemma sprt_sanity_upper_bound (n : ℕ) (s : Sprt) :
    (sprt_sanity n s).upper_bound = s.upper_bound := by
  unfold sprt_sanity
  split_ifs <;> rfl

lemma overshoot_step_elo_model (n b : ℕ) (llr : ℝ) (s : Sprt) :
    (overshoot_step n b llr s).elo_model = s.elo_model := by
  unfold overshoot_step
  cases s.overshoot with
  | none => rfl
  | some o =>
    dsimp only
    split_ifs <;> rfl

lemma overshoot_step_elo0 (n b : ℕ) (llr : ℝ) (s : Sprt) :
    (overshoot_step n b llr s).elo0 = s.elo0 := by
  unfold overshoot_step
  cases s.overshoot with
  | none => rfl
  | some o =>
    dsimp only
    split_ifs <;> rfl

lemma overshoot_step_elo1 (n b : ℕ) (llr : ℝ) (s : Sprt) :
    (overshoot_step n b llr s).elo1 = s.elo1 := by
  unfold overshoot_step
  cases s.overshoot with
  | none => rfl
  | some o =>
    dsimp only
    split_ifs <;> rfl

lemma overshoot_step_alpha (n b : ℕ) (llr : ℝ) (s : Sprt) :
    (overshoot_step n b llr s).alpha = s.alpha := by
  unfold overshoot_step
  cases s.overshoot with
  | none => rfl
  | some o =>
    dsimp only
    split_ifs <;> rfl

lemma overshoot_step_beta (n b : ℕ) (llr : ℝ) (s : Sprt) :
    (overshoot_step n b llr s).beta = s.beta := by
  unfold overshoot_step
  cases s.overshoot with
  | none => rfl
  | some o =>
    dsimp only
    split_ifs <;> rfl

lemma overshoot_step_batch_size (n b : ℕ) (llr : ℝ) (s : Sprt) :
    (overshoot_step n b llr s).batch_size = s.batch_size := by
  unfold overshoot_step
  cases s.overshoot with
  | none => rfl
  | some o =>
    dsimp only
    split_ifs <;> rfl

lemma overshoot_step_lower_bound (n b : ℕ) (llr : ℝ) (s : Sprt) :
    (overshoot_step n b llr s).lower_bound = s.lower_bound := by
  unfold overshoot_step
  cases s.overshoot with
  | none => rfl
  | some o =>
    dsimp only
    split_ifs <;> rfl

lemma overshoot_step_upper_bound (n b : ℕ) (llr : ℝ) (s : Sprt) :
    (overshoot_step n b llr s).upper_bound = s.upper_bound := by
  unfold overshoot_step
  cases s.overshoot with
  | none => rfl
  | some o =>
    dsimp only
    split_ifs <;> rfl

lemma overshoot_step_llr (n b : ℕ) (llr : ℝ) (s : Sprt) :
    (overshoot_step n b llr s).llr = s.llr := by
  unfold overshoot_step
  cases s.overshoot with
  | none => rfl
  | some o =>
    dsimp only
    split_ifs <;> rfl

lemma overshoot_step_state (n b : ℕ) (llr : ℝ) (s : Sprt) :
    (overshoot_step n b llr s).state = s.state := by
  unfold overshoot_step
  cases s.overshoot with
  | none => rfl
  | some o =>
    dsimp only
    split_ifs <;> rfl


lemma sprt_decide_elo_model (s : Sprt) :
    (sprt_decide s).elo_model = s.elo_model := by
  unfold sprt_decide
  dsimp only
  split_ifs <;> rfl

lemma sprt_decide_elo0 (s : Sprt) :
    (sprt_decide s).elo0 = s.elo0 := by
  unfold sprt_decide
  dsimp only
  split_ifs <;> rfl

lemma sprt_decide_elo1 (s : Sprt) :
    (sprt_decide s).elo1 = s.elo1 := by
  unfold sprt_decide
  dsimp only
  split_ifs <;> rfl

lemma sprt_decide_alpha (s : Sprt) :
    (sprt_decide s).alpha = s.alpha := by
  unfold sprt_decide
  dsimp only
  split_ifs <;> rfl

lemma sprt_decide_beta (s : Sprt) :
    (sprt_decide s).beta = s.beta := by
  unfold sprt_decide
  dsimp only
  split_ifs <;> rfl

lemma sprt_decide_batch_size (s : Sprt) :
    (sprt_decide s).batch_size = s.batch_size := by
  unfold sprt_decide
  dsimp only
  split_ifs <;> rfl

lemma sprt_decide_lower_bound (s : Sprt) :
    (sprt_decide s).lower_bound = s.lower_bound := by
  unfold sprt_decide
  dsimp only
  split_ifs <;> rfl

lemma sprt_decide_upper_bound (s : Sprt) :
    (sprt_decide s).upper_bound = s.upper_bound := by
  unfold sprt_decide
  dsimp only
  split_ifs <;> rfl

lemma sprt_decide_llr (s : Sprt) :
    (sprt_decide s).llr = s.llr := by
  unfold sprt_decide
  dsimp only
  split_ifs <;> rfl

lemma sprt_decide_overshoot (s : Sprt) :
    (sprt_decide s).overshoot = s.overshoot := by
  unfold sprt_decide
  dsimp only
  split_ifs <;> rfl

lemma sprt_decide_illegal_update (s : Sprt) :
    (sprt_decide s).illegal_update = s.illegal_update := by
  unfold sprt_decide
  dsimp only
  split_ifs <;> rfl

lemma sprt_decide_lost_samples (s : Sprt) :
    (sprt_decide s).lost_samples = s.lost_samples := by
  unfold sprt_decide
  dsimp only
  split_ifs <;> rfl

lemma sprt_sanity_overshoot (n : ℕ) (s : Sprt) :
    (sprt_sanity n s).overshoot = if n % s.batch_size ≠ 0 then none else s.overshoot := by
  unfold sprt_sanity
  split_ifs <;> rfl

lemma update_SPRT_overshoot_eq_pre (R : SprtResults) (s : Sprt) :
    (update_SPRT R s).overshoot = (sprt_pre R s).overshoot :=
  sprt_decide_overshoot _

lemma update_SPRT_elo_model (R : SprtResults) (s : Sprt) :
    (update_SPRT R s).elo_model = s.elo_model := by
  simp only [update_SPRT, sprt_pre, sprt_decide_elo_model, overshoot_step_elo_model,
    sprt_sanity_elo_model, sprt_recompute_bounds]

lemma update_SPRT_elo0 (R : SprtResults) (s : Sprt) :
    (update_SPRT R s).elo0 = s.elo0 := by
  simp only [update_SPRT, sprt_pre, sprt_decide_elo0, overshoot_step_elo0,
    sprt_sanity_elo0, sprt_recompute_bounds]

lemma update_SPRT_elo1 (R : SprtResults) (s : Sprt) :
    (update_SPRT R s).elo1 = s.elo1 := by
  simp only [update_SPRT, sprt_pre, sprt_decide_elo1, overshoot_step_elo1,
    sprt_sanity_elo1, sprt_recompute_bounds]

lemma update_SPRT_alpha (R : SprtResults) (s : Sprt) :
    (update_SPRT R s).alpha = s.alpha := by
  simp only [update_SPRT, sprt_pre, sprt_decide_alpha, overshoot_step_alpha,
    sprt_sanity_alpha, sprt_recompute_bounds]

lemma update_SPRT_beta (R : SprtResults) (s : Sprt) :
    (update_SPRT R s).beta = s.beta := by
  simp only [update_SPRT, sprt_pre, sprt_decide_beta, overshoot_step_beta,
    sprt_sanity_beta, sprt_recompute_bounds]

lemma update_SPRT_batch_size (R : SprtResults) (s : Sprt) :
    (update_SPRT R s).batch_size = s.batch_size := by
  simp only [update_SPRT, sprt_pre, sprt_decide_batch_size, overshoot_step_batch_size,
    sprt_sanity_batch_size, sprt_recompute_bounds]

lemma sprt_pre_llr (R : SprtResults) (s : Sprt) :
    (sprt_pre R s).llr = sprt_llr_value R s := by
  simp only [sprt_pre, overshoot_step_llr, sprt_llr_value]
  rw [sprt_lelo_congr [R.losses, R.draws, R.wins] (sprt_recompute_bounds s) s rfl rfl rfl]

lemma update_SPRT_llr_val (R : SprtResults) (s : Sprt) :
    (update_SPRT R s).llr = sprt_llr_value R s := by
  rw [update_SPRT, sprt_decide_llr, sprt_pre_llr]

lemma sprt_pre_lower_bound (R : SprtResults) (s : Sprt) :
    (sprt_pre R s).lower_bound = Real.log (s.beta / (1 - s.alpha)) := by
  simp only [sprt_pre, overshoot_step_lower_bound, sprt_sanity_lower_bound,
    sprt_recompute_bounds]

lemma sprt_pre_upper_bound (R : SprtResults) (s : Sprt) :
    (sprt_pre R s).upper_bound = Real.log ((1 - s.beta) / s.alpha) := by
  simp only [sprt_pre, overshoot_step_upper_bound, sprt_sanity_upper_bound,
    sprt_recompute_bounds]

lemma overshoot_step_of_none (n b : ℕ) (llr : ℝ) (s : Sprt)
    (h : s.overshoot = none) : (overshoot_step n b llr s).overshoot = none := by
  simp only [overshoot_step, h]

lemma sprt_pre_overshoot_bad (R : SprtResults) (s : Sprt)
    (h : num_samples_of R % s.batch_size ≠ 0) :
    (sprt_pre R s).overshoot = none := by
  simp only [sprt_pre, num_samples_of] at *
  apply overshoot_step_of_none
  simp only [sprt_sanity_overshoot, sprt_recompute_bounds]
  rw [if_pos h]

lemma sprt_pre_overshoot_none (R : SprtResults) (s : Sprt)
    (h : s.overshoot = none) : (sprt_pre R s).overshoot = none := by
  simp only [sprt_pre]
  apply overshoot_step_of_none
  simp only [sprt_sanity_overshoot, sprt_recompute_bounds, h]
  split_ifs <;> rfl

lemma sprt_pre_overshoot_purge (R : SprtResults) (s : Sprt) (o : Overshoot)
    (ho : s.overshoot = some o) (h0 : num_samples_of R % s.batch_size = 0)
    (hlt : num_samples_of R < o.last_update) :
    (sprt_pre R s).overshoot = none := by
  simp only [sprt_pre]
  have hsan : (sprt_sanity (num_samples_of R) (sprt_recompute_bounds s)).overshoot
      = some o := by
    simp only [sprt_sanity_overshoot, sprt_recompute_bounds, ho]
    rw [if_neg]
    simp only [ne_eq, Decidable.not_not]
    exact h0
  simp only [num_samples_of] at hsan
  simp only [overshoot_step, hsan]
  rw [if_pos (show (R.pentanomial.getD [R.losses, R.draws, R.wins]).sum < o.last_update
    from by simpa only [num_samples_of] using hlt)]

lemma sprt_pre_overshoot_kept (R : SprtResults) (s : Sprt) (o : Overshoot)
    (ho : s.overshoot = some o) (h0 : num_samples_of R % s.batch_size = 0)
    (hge : ¬ num_samples_of R < o.last_update) :
    ∃ o1, (sprt_pre R s).overshoot = some o1
      ∧ o1.last_update = num_samples_of R := by
  simp only [sprt_pre]
  have hsan : (sprt_sanity (num_samples_of R) (sprt_recompute_bounds s)).overshoot
      = some o := by
    simp only [sprt_sanity_overshoot, sprt_recompute_bounds, ho]
    rw [if_neg]
    simp only [ne_eq, Decidable.not_not]
    exact h0
  simp only [num_samples_of] at hsan
  simp only [overshoot_step, hsan]
  rw [if_neg (show ¬ (R.pentanomial.getD [R.losses, R.draws, R.wins]).sum < o.last_update
    from by simpa only [num_samples_of] using hge)]
  exact ⟨_, rfl, rfl⟩

lemma sprt_pre_overshoot_same (R : SprtResults) (s : Sprt) (o : Overshoot)
    (ho : s.overshoot = some o) (h0 : num_samples_of R % s.batch_size = 0)
    (hlast : o.last_update = num_samples_of R) :
    (sprt_pre R s).overshoot = some o := by
  have hlast2 : o.last_update = (R.pentanomial.getD [R.losses, R.draws, R.wins]).sum := by
    simpa only [num_samples_of] using hlast
  obtain ⟨o1, h1, h2⟩ := sprt_pre_overshoot_kept R s o ho h0
    (by simp only [num_samples_of]; omega)
  have : o1 = o := by
    -- re-derive the shape: same-data branch returns the record unchanged
    simp only [sprt_pre] at h1
    have hsan : (sprt_sanity (num_samples_of R) (sprt_recompute_bounds s)).overshoot
        = some o := by
      simp only [sprt_sanity_overshoot, sprt_recompute_bounds, ho]
      rw [if_neg]
      simp only [ne_eq, Decidable.not_not]
      exact h0
    simp only [num_samples_of] at hsan
    simp only [overshoot_step, hsan] at h1
    rw [if_neg (by omega), if_pos (by omega)] at h1
    have h3 : ({ o with last_update := (R.pentanomial.getD [R.losses, R.draws, R.wins]).sum } : Overshoot) = o := by
      rw [← hlast2]
    rw [h3] at h1
    exact (Option.some_injective _ h1.symm)
  rw [h1, this]

lemma sprt_decide_state_congr (s t : Sprt) (h1 : s.llr = t.llr)
    (h2 : s.lower_bound = t.lower_bound) (h3 : s.upper_bound = t.upper_bound)
    (h4 : s.overshoot = t.overshoot) :
    (sprt_decide s).state = (sprt_decide t).state := by
  unfold sprt_decide
  dsimp only
  rw [h1, h2, h3, h4]
  split_ifs <;> rfl

end StatUtil

/-- The results record of the C2 counterexample: no pentanomial,
`R3 = [2,2,0]`, 4 samples in total. -/
def resC2 : StatUtil.SprtResults :=
  { wins := 0, losses := 2, draws := 2, pentanomial := none }

/-- The overshoot record of the C2 counterexample: `last_update = 2`. -/
def overC2 : StatUtil.Overshoot :=
  { last_update := 2, skipped_updates := 0, ref0 := 0, m0 := 0, sq0 := 0, ref1 := 0, m1 := 0, sq1 := 0 }

/-- The SPRT record of the C2 counterexample: logistic model,
`batch_size = 1`, an overshoot record with `last_update = 2`. -/
def sprtC2 : StatUtil.Sprt :=
  { alpha := 0.05, beta := 0.05, elo0 := 0, elo1 := 2, elo_model := .logistic,
    state := "", llr := 0, batch_size := 1, lower_bound := 0, upper_bound := 0,
    overshoot := some overC2, illegal_update := none, lost_samples := none }

/-- Claim C2 (counterexample): `update_SPRT` is called with 4 samples
while the overshoot record has `last_update = 2` and `batch_size = 1`, so
the reported count is neither lower than `last_update` nor equal to
`last_update + batch_size`; the claim then demands that the overshoot
record be removed, but the code keeps it (it only resets the references
and counts the skipped updates). -/
theorem claim_C2_counterexample :
    StatUtil.num_samples_of resC2 = 4
      ∧ StatUtil.num_samples_of resC2 ≠ 2 + sprtC2.batch_size
      ∧ (StatUtil.update_SPRT resC2 sprtC2).overshoot.isSome = true := by
  have h4 : StatUtil.num_samples_of resC2 = 4 := rfl
  have hbs : sprtC2.batch_size = 1 := rfl
  refine ⟨h4, by rw [h4, hbs]; decide, ?_⟩
  rw [StatUtil.update_SPRT_overshoot_eq_pre]
  obtain ⟨o1, h1, -⟩ := StatUtil.sprt_pre_overshoot_kept resC2 sprtC2 overC2 rfl
    (by rw [h4, hbs]) (by rw [h4]; decide)
  rw [h1]
  rfl

/-- Claim C2 (amended): for a state carrying an overshoot record and a
positive batch size, `update_SPRT` removes the overshoot record exactly
when the reported sample count is not a multiple of `batch_size` or is
lower than `last_update`; any other count (in particular one that is a
multiple of `batch_size` but differs from `last_update + batch_size`)
keeps the record — the run merely resets its references. -/
theorem claim_C2_amended (R : StatUtil.SprtResults) (sprt : StatUtil.Sprt)
    (o : StatUtil.Overshoot) (ho : sprt.overshoot = some o)
    (hb : 0 < sprt.batch_size) :
    ((StatUtil.update_SPRT R sprt).overshoot = none
      ↔ (StatUtil.num_samples_of R % sprt.batch_size ≠ 0
          ∨ StatUtil.num_samples_of R < o.last_update)) := by
  rw [StatUtil.update_SPRT_overshoot_eq_pre]
  by_cases h0 : StatUtil.num_samples_of R % sprt.batch_size ≠ 0
  · rw [StatUtil.sprt_pre_overshoot_bad R sprt h0]
    exact iff_of_true rfl (Or.inl h0)
  · push_neg at h0
    by_cases hlt : StatUtil.num_samples_of R < o.last_update
    · rw [StatUtil.sprt_pre_overshoot_purge R sprt o ho h0 hlt]
      exact iff_of_true rfl (Or.inr hlt)
    · obtain ⟨o1, h1, -⟩ := StatUtil.sprt_pre_overshoot_kept R sprt o ho h0 hlt
      rw [h1]
      exact iff_of_false (by simp) (fun h => h.elim (fun hA => hA h0) (fun hB => hlt hB))

/-- Witness for the amended claim C2 at the concrete counterexample
input (4 samples, `last_update = 2`, `batch_size = 1`). -/
theorem claim_C2_amended_witness :
    ((StatUtil.update_SPRT resC2 sprtC2).overshoot = none
      ↔ (StatUtil.num_samples_of resC2 % sprtC2.batch_size ≠ 0
          ∨ StatUtil.num_samples_of resC2 < overC2.last_update)) :=
  claim_C2_amended resC2 sprtC2
    overC2 rfl (by decide)

/-- Claim C10: `update_SPRT` is idempotent on identical data — a second
call with the same results leaves `llr`, `state` and the overshoot
record (all its fields) unchanged.  The hypothesis `0 < batch_size`
restricts to states on which the Python source does not raise a
division-by-zero exception. -/
theorem claim_C10 (R : StatUtil.SprtResults) (sprt : StatUtil.Sprt)
    (hb : 0 < sprt.batch_size) :
    (StatUtil.update_SPRT R (StatUtil.update_SPRT R sprt)).llr
        = (StatUtil.update_SPRT R sprt).llr
      ∧ (StatUtil.update_SPRT R (StatUtil.update_SPRT R sprt)).state
        = (StatUtil.update_SPRT R sprt).state
      ∧ (StatUtil.update_SPRT R (StatUtil.update_SPRT R sprt)).overshoot
        = (StatUtil.update_SPRT R sprt).overshoot := by
  set s1 := StatUtil.update_SPRT R sprt with hs1
  have hcongr : StatUtil.sprt_llr_value R s1 = StatUtil.sprt_llr_value R sprt :=
    StatUtil.sprt_llr_value_congr R s1 sprt (StatUtil.update_SPRT_elo_model R sprt)
      (StatUtil.update_SPRT_elo0 R sprt) (StatUtil.update_SPRT_elo1 R sprt)
  have hllr : (StatUtil.update_SPRT R s1).llr = s1.llr := by
    rw [StatUtil.update_SPRT_llr_val, hcongr, hs1, StatUtil.update_SPRT_llr_val]
  have hover : (StatUtil.sprt_pre R s1).overshoot = (StatUtil.sprt_pre R sprt).overshoot := by
    by_cases h0 : StatUtil.num_samples_of R % sprt.batch_size ≠ 0
    · have h0b : StatUtil.num_samples_of R % s1.batch_size ≠ 0 := by
        rw [hs1, StatUtil.update_SPRT_batch_size]
        exact h0
      rw [StatUtil.sprt_pre_overshoot_bad R s1 h0b, StatUtil.sprt_pre_overshoot_bad R sprt h0]
    · push_neg at h0
      have h0b : StatUtil.num_samples_of R % s1.batch_size = 0 := by
        rw [hs1, StatUtil.update_SPRT_batch_size]
        exact h0
      rcases hcase : sprt.overshoot with _ | o
      · have hp1 : (StatUtil.sprt_pre R sprt).overshoot = none :=
          StatUtil.sprt_pre_overshoot_none R sprt hcase
        have hs1o : s1.overshoot = none := by
          rw [hs1, StatUtil.update_SPRT_overshoot_eq_pre, hp1]
        rw [StatUtil.sprt_pre_overshoot_none R s1 hs1o, hp1]
      · by_cases hlt : StatUtil.num_samples_of R < o.last_update
        · have hp1 : (StatUtil.sprt_pre R sprt).overshoot = none :=
            StatUtil.sprt_pre_overshoot_purge R sprt o hcase h0 hlt
          have hs1o : s1.overshoot = none := by
            rw [hs1, StatUtil.update_SPRT_overshoot_eq_pre, hp1]
          rw [StatUtil.sprt_pre_overshoot_none R s1 hs1o, hp1]
        · obtain ⟨o1, hp1, hlast⟩ :=
            StatUtil.sprt_pre_overshoot_kept R sprt o hcase h0 hlt
          have hs1o : s1.overshoot = some o1 := by
            rw [hs1, StatUtil.update_SPRT_overshoot_eq_pre, hp1]
          rw [StatUtil.sprt_pre_overshoot_same R s1 o1 hs1o h0b hlast, hp1]
  have hov : (StatUtil.update_SPRT R s1).overshoot = s1.overshoot := by
    rw [StatUtil.update_SPRT_overshoot_eq_pre, hover, hs1,
      StatUtil.update_SPRT_overshoot_eq_pre]
  have hstate : (StatUtil.update_SPRT R s1).state = s1.state := by
    rw [hs1]
    show (StatUtil.sprt_decide (StatUtil.sprt_pre R s1)).state
      = (StatUtil.sprt_decide (StatUtil.sprt_pre R sprt)).state
    apply StatUtil.sprt_decide_state_congr
    · rw [StatUtil.sprt_pre_llr, StatUtil.sprt_pre_llr]
      exact hcongr
    · rw [StatUtil.sprt_pre_lower_bound, StatUtil.sprt_pre_lower_bound,
        StatUtil.update_SPRT_beta, StatUtil.update_SPRT_alpha]
    · rw [StatUtil.sprt_pre_upper_bound, StatUtil.sprt_pre_upper_bound,
        StatUtil.update_SPRT_beta, StatUtil.update_SPRT_alpha]
    · exact hover
  exact ⟨hllr, hstate, hov⟩

/-- Witness for claim C10 at the concrete input of the C2 record. -/
theorem claim_C10_witness :
    (StatUtil.update_SPRT resC2 (StatUtil.update_SPRT resC2 sprtC2)).llr
        = (StatUtil.update_SPRT resC2 sprtC2).llr
      ∧ (StatUtil.update_SPRT resC2 (StatUtil.update_SPRT resC2 sprtC2)).state
        = (StatUtil.update_SPRT resC2 sprtC2).state
      ∧ (StatUtil.update_SPRT resC2 (StatUtil.update_SPRT resC2 sprtC2)).overshoot
        = (StatUtil.update_SPRT resC2 sprtC2).overshoot :=
  claim_C10 resC2 sprtC2 (by decide)

namespace Fishtest

/-- The per-task stats dictionary (and the aggregated results of a run):
wins, losses, draws, crashes, time losses and the optional pentanomial
vector. -/
structure TaskStats where
  wins : ℕ := 0
  losses : ℕ := 0
  draws : ℕ := 0
  crashes : ℕ := 0
  time_losses : ℕ := 0
  pentanomial : Option (List ℕ) := none

/-- The `worker_info` dictionary.  `rate` is the optional GitHub rate
information `(remaining, limit)`.  The field `key` models the worker key
computed by `get_worker_key` (the `UUID_MAP` bookkeeping of the source
assigns each `(username, concurrency, unique_key)` a stable display key;
the key itself is opaque to all the code modelled here, so it is carried
as a field). -/
structure WorkerInfo where
  username : String := ""
  remote_addr : String := ""
  concurrency : ℕ := 1
  unique_key : String := ""
  min_threads : ℕ := 1
  max_memory : ℕ := 0
  rate : Option (ℕ × ℕ) := none
  key : String := ""

/-- A task (chunk) of a run.  Keys that a freshly generated task does not
have (`worker_info`, `stats`) are `Option` fields; fields written later
(`residual`, `residual_color`, `bad`) carry their written value or a
default. -/
structure Task where
  num_games : ℕ := 0
  pending : Bool := false
  active : Bool := false
  worker_info : Option WorkerInfo := none
  stats : Option TaskStats := none
  nps : ℚ := 0
  last_updated : ℕ := 0
  residual : ℝ := 0
  residual_color : String := ""
  bad : Bool := false

/-- One SPSA parameter. -/
structure SpsaParam where
  name : String := ""
  theta : ℚ := 0
  min : ℚ := 0
  max : ℚ := 0
  c_end : ℚ := 0
  r_end : ℚ := 0
  a : ℚ := 0
  c : ℚ := 0

/-- One entry of an SPSA `param_history` snapshot. -/
structure SpsaSummaryEntry where
  theta : ℚ := 0
  R : ℚ := 0
  c : ℚ := 0

/-- The SPSA configuration of a run.  `clipping` is optional (the source
tests `'clipping' not in spsa`); `param_history` is created on first
use. -/
structure Spsa where
  params : List SpsaParam := []
  iter : ℕ := 0
  num_iter : ℕ := 0
  clipping : Option String := none
  rounding : String := "deterministic"
  param_history : Option (List (List SpsaSummaryEntry)) := none

/-- The per-worker stored perturbation data `w_params[idx]` used by
`update_spsa`: gain `R`, step `c` and the perturbation sign `flip`. -/
structure WParam where
  R : ℚ := 0
  c : ℚ := 0
  flip : ℤ := 1

/-- The run arguments.  The `Hash=N` values that the source extracts from
the option strings with a regular expression are modelled as the parsed
numbers `new_hash` and `base_hash`. -/
structure RunArgs where
  num_games : ℕ := 0
  threads : ℕ := 1
  priority : ℚ := 0
  itp : ℚ := 100
  auto_purge : Bool := true
  throughput : ℚ := 100
  username : String := ""
  sprt : Option StatUtil.Sprt := none
  spsa : Option Spsa := none
  new_hash : ℕ := 0
  base_hash : ℕ := 0

/-- The `results_info` presentation record; only its `style` field is
consumed by the orchestration code (to set `is_green` and
`is_yellow`). -/
structure ResultsInfo where
  style : String := ""
  info : List String := []

/-- A run document. -/
structure Run where
  run_id : ℕ := 0
  args : RunArgs := {}
  tasks : List Task := []
  bad_tasks : List Task := []
  finished : Bool := false
  deleted : Bool := false
  approved : Bool := false
  results_stale : Bool := false
  results : TaskStats := {}
  cores : Option ℤ := none
  is_green : Bool := false
  is_yellow : Bool := false
  results_info : Option ResultsInfo := none
  last_updated : ℕ := 0

end Fishtest

namespace Util

open Classical Fishtest

/-- `get_worker_key` from `util.py` (see `WorkerInfo.key`): tasks without
`worker_info` get the key `"-"`. -/
def get_worker_key (task : Task) : String :=
  match task.worker_info with
  | none => "-"
  | some w => w.key

/-- A Python float that is either NaN or an actual value. -/
inductive FV where
  | nan
  | val (x : ℝ)

/-- The Python `<` on floats: any comparison with NaN is false. -/
def FV.lt : FV → FV → Prop
  | .val a, .val b => a < b
  | _, _ => False

/-- The dictionary returned by `get_chi2`. -/
structure Chi2 where
  chi2 : FV
  dof : ℕ
  p : FV
  residual : List (String × ℝ)

/-- Add a `(wins, losses, draws)` triple to the accumulator of the
per-worker aggregation (Python dict update, insertion ordered). -/
def add_wld : List (String × (ℚ × ℚ × ℚ)) → String → (ℚ × ℚ × ℚ) →
    List (String × (ℚ × ℚ × ℚ))
  | [], k, wld => [(k, wld)]
  | (k1, w1) :: rest, k, wld =>
    if k1 = k then (k1, (w1.1 + wld.1, w1.2.1 + wld.2.1, w1.2.2 + wld.2.2)) :: rest
    else (k1, w1) :: add_wld rest k wld

/-- The `users` aggregation of `get_chi2`: per-worker `[W, L, D]`
tallies, skipping tasks without `worker_info`, workers in `bad_users`,
and all-zero tallies. -/
def users_of (tasks : List Task) (bad_users : List String) :
    List (String × (ℚ × ℚ × ℚ)) :=
  tasks.foldl (fun acc task =>
    match task.worker_info with
    | none => acc
    | some _ =>
      let key := get_worker_key task
      if key ∈ bad_users then acc
      else
        let st := task.stats.getD {}
        let wld : ℚ × ℚ × ℚ := ((st.wins : ℚ), (st.losses : ℚ), (st.draws : ℚ))
        if wld = (0, 0, 0) then acc
        else add_wld acc key wld) []

/-- The observed contingency-table row of one aggregated worker. -/
def row_of (u : String × (ℚ × ℚ × ℚ)) : List ℚ := [u.2.1, u.2.2.1, u.2.2.2]

/-- Column sums of a contingency table. -/
def column_sums (observed : List (List ℚ)) : List ℚ :=
  (List.range observed.headI.length).map
    (fun j => (observed.map (fun row => row.getD j 0)).sum)

/-- `sum(i > 0 for i in column_sums)` of `get_chi2`. -/
def columns_not_zero (observed : List (List ℚ)) : ℕ :=
  ((column_sums observed).filter (fun c => 0 < c)).length

/-- `get_chi2 tasks bad_users` from `util.py`.  The chi-squared
cumulative distribution function of SciPy is the parameter `cdf`.  The
adjusted residuals follow the formula of the source:
`(observed−expected)/sqrt(expected·(1−row/N)·(1−col/N))`. -/
def get_chi2 (cdf : ℝ → ℕ → ℝ) (tasks : List Task) (bad_users : List String) : Chi2 :=
  let results : Chi2 := { chi2 := .val 0, dof := 0, p := .val 0, residual := [] }
  let users := users_of tasks bad_users
  if users.length = 0 then results
  else
    let observed := users.map row_of
    let rows := users.length
    if rows = 1 then { chi2 := .nan, dof := 0, p := .nan, residual := [] }
    else
      let cnz := columns_not_zero observed
      let df := (rows - 1) * (3 - 1)
      if cnz = 0 then results
      else if cnz = 1 then { chi2 := .val 0, dof := df, p := .val 1, residual := [] }
      else
        let keep := (List.range 3).filter
          (fun j => ¬ (observed.map (fun row => row.getD j 0)).all (fun x => x = 0))
        let observed := if cnz = 2 then
            observed.map (fun row => keep.map (fun j => row.getD j 0))
          else observed
        let csums := column_sums observed
        let rsums := observed.map List.sum
        let gt := csums.sum
        let expected := rsums.map (fun r => csums.map (fun c => r * c / gt))
        let chi2v : ℚ := (List.zipWith
          (fun orow erow => (List.zipWith (fun o e => (o - e) ^ 2 / e) orow erow).sum)
          observed expected).sum
        let adjrow := fun (orow erow : List ℚ) (r : ℚ) =>
          List.zipWith (fun (oe : ℚ × ℚ) (c : ℚ) =>
            (((oe.1 - oe.2 : ℚ) : ℝ))
              / Real.sqrt (((oe.2 : ℚ) : ℝ)
                  * (1 - ((r / gt : ℚ) : ℝ)) * (1 - ((c / gt : ℚ) : ℝ))))
            (orow.zip erow) csums
        let resvals := List.zipWith (fun (oe : List ℚ × List ℚ) (r : ℚ) =>
            ((adjrow oe.1 oe.2 r).map (fun x => |x|)).foldr max 0)
          (observed.zip expected) rsums
        { chi2 := .val ((chi2v : ℚ) : ℝ), dof := df,
          p := .val (1 - cdf ((chi2v : ℚ) : ℝ) df),
          residual := List.zipWith (fun (u : String × (ℚ × ℚ × ℚ)) v => (u.1, v))
            (users_of tasks bad_users) resvals }

/-- Dictionary lookup `residuals.get(key, 0.0)` of `calculate_residuals`. -/
def residual_of (residuals : List (String × ℝ)) (key : String) : ℝ :=
  match residuals.find? (fun q => q.1 = key) with
  | some q => q.2
  | none => 0

/-- The residual a task is assigned by `calculate_residuals`: the value
from the chi-squared residual map, overridden to `8.0` for a task with
more than 3 crashes. -/
def effective_residual (residuals : List (String × ℝ)) (task : Task) : ℝ :=
  if (task.stats.getD {}).crashes > 3 then 8 else residual_of residuals (get_worker_key task)

/-- The condition under which a task is eligible to become the worst
user in `calculate_residuals`: `chi2[p] < 0.001 or residual > 7.0`. -/
def qualifies (p : FV) (residuals : List (String × ℝ)) (task : Task) : Prop :=
  FV.lt p (.val 0.001) ∨ effective_residual residuals task > 7

/-- The residual color classification of `calculate_residuals`. -/
def residual_color_of (r : ℝ) : String :=
  if |r| < 2 then "#44EB44" else if |r| < 2.7 then "yellow" else "#FF6A6A"

/-- The body of the (single) iteration of the loop in
`calculate_residuals`: assign residuals and colors to the tasks and track
the worst qualifying user. -/
def residual_pass (p : FV) (residuals : List (String × ℝ)) (bad_users : List String) :
    List Task → Option (String × ℝ) → List Task × Option (String × ℝ)
  | [], worst => ([], worst)
  | task :: rest, worst =>
    if get_worker_key task ∈ bad_users then
      let r := residual_pass p residuals bad_users rest worst
      (task :: r.1, r.2)
    else
      let rv := effective_residual residuals task
      let task1 := { task with residual := rv, residual_color := residual_color_of rv }
      let worst1 :=
        if FV.lt p (.val 0.001) ∨ rv > 7 then
          match worst with
          | none => some (get_worker_key task, rv)
          | some w => if rv > w.2 then some (get_worker_key task, rv) else some w
        else worst
      let r := residual_pass p residuals bad_users rest worst1
      (task1 :: r.1, r.2)

/-- The dictionary returned by `calculate_residuals`: the first
chi-squared result extended with the `bad_users` set. -/
structure Chi2Bad extends Chi2 where
  bad_users : List String

/-- `calculate_residuals run` from `util.py` as a pure function: returns
the extended chi-squared record and the run with its tasks annotated.
The loop `for _ in range(1)` executes its body once; when a worst user
was found it is added to `bad_users` and the residual map is recomputed
(the recomputed map is dead, as in the source, because the loop ends). -/
def calculate_residuals (cdf : ℝ → ℕ → ℝ) (run : Run) : Chi2Bad × Run :=
  let bad_users : List String := []
  let chi2 := get_chi2 cdf run.tasks bad_users
  let residuals := chi2.residual
  let pass1 := residual_pass chi2.p residuals bad_users run.tasks none
  match pass1.2 with
  | none => ({ toChi2 := chi2, bad_users := bad_users }, { run with tasks := pass1.1 })
  | some w =>
    let bad2 := [w.1]
    let _residuals2 := (get_chi2 cdf pass1.1 bad2).residual
    ({ toChi2 := chi2, bad_users := bad2 }, { run with tasks := pass1.1 })

/-- What `residual_pass` guarantees about the worst user it tracks: a
reported worst user is either the incoming one or a qualifying task of
the list, its residual bounds every qualifying residual of the list, and
it is at least as large as the incoming worst. -/
lemma residual_pass_spec (p : FV) (res : List (String × ℝ)) (tasks : List Task) :
    ∀ (worst : Option (String × ℝ)) (out : String × ℝ),
      (residual_pass p res [] tasks worst).2 = some out →
      (worst = some out ∨ ∃ t ∈ tasks, get_worker_key t = out.1
          ∧ effective_residual res t = out.2 ∧ qualifies p res t)
        ∧ (∀ t ∈ tasks, qualifies p res t → effective_residual res t ≤ out.2)
        ∧ (∀ w0, worst = some w0 → w0.2 ≤ out.2) := by
  induction tasks with
  | nil =>
    intro worst out h
    simp only [residual_pass] at h
    refine ⟨Or.inl h, by simp, fun w0 hw => ?_⟩
    rw [hw] at h
    rw [Option.some.inj h]
  | cons task rest ih =>
    intro worst out h
    simp only [residual_pass] at h
    rw [if_neg (List.not_mem_nil _)] at h
    dsimp only at h
    by_cases hq : FV.lt p (.val 0.001) ∨ effective_residual res task > 7
    · rw [if_pos hq] at h
      cases worst with
      | none =>
        dsimp only at h
        obtain ⟨h1, h2, h3⟩ :=
          ih (some (get_worker_key task, effective_residual res task)) out h
        refine ⟨?_, ?_, by intro w0 hw; cases hw⟩
        · rcases h1 with h1 | ⟨t, ht, hk, hr, hqq⟩
          · right
            obtain hcast := Option.some.inj h1
            exact ⟨task, List.mem_cons_self .., by rw [← hcast], by rw [← hcast], hq⟩
          · exact Or.inr ⟨t, List.mem_cons_of_mem _ ht, hk, hr, hqq⟩
        · intro t ht hqt
          rcases List.mem_cons.mp ht with rfl | ht2
          · exact h3 _ rfl
          · exact h2 t ht2 hqt
      | some w =>
        dsimp only at h
        by_cases hgt : effective_residual res task > w.2
        · rw [if_pos hgt] at h
          obtain ⟨h1, h2, h3⟩ :=
            ih (some (get_worker_key task, effective_residual res task)) out h
          refine ⟨?_, ?_, fun w0 hw => ?_⟩
          · rcases h1 with h1 | ⟨t, ht, hk, hr, hqq⟩
            · right
              obtain hcast := Option.some.inj h1
              exact ⟨task, List.mem_cons_self .., by rw [← hcast], by rw [← hcast], hq⟩
            · exact Or.inr ⟨t, List.mem_cons_of_mem _ ht, hk, hr, hqq⟩
          · intro t ht hqt
            rcases List.mem_cons.mp ht with rfl | ht2
            · exact h3 _ rfl
            · exact h2 t ht2 hqt
          · have hle : w0.2 ≤ effective_residual res task := by
              rw [← Option.some.inj hw]
              exact le_of_lt hgt
            exact le_trans hle (h3 _ rfl)
        · rw [if_neg hgt] at h
          obtain ⟨h1, h2, h3⟩ := ih (some w) out h
          refine ⟨?_, ?_, fun w0 hw => ?_⟩
          · rcases h1 with h1 | ⟨t, ht, hk, hr, hqq⟩
            · exact Or.inl h1
            · exact Or.inr ⟨t, List.mem_cons_of_mem _ ht, hk, hr, hqq⟩
          · intro t ht hqt
            rcases List.mem_cons.mp ht with rfl | ht2
            · exact le_trans (not_lt.mp hgt) (h3 _ rfl)
            · exact h2 t ht2 hqt
          · rw [← Option.some.inj hw]
            exact h3 _ rfl
    · rw [if_neg hq] at h
      obtain ⟨h1, h2, h3⟩ := ih worst out h
      refine ⟨?_, ?_, h3⟩
      · rcases h1 with h1 | ⟨t, ht, hk, hr, hqq⟩
        · exact Or.inl h1
        · exact Or.inr ⟨t, List.mem_cons_of_mem _ ht, hk, hr, hqq⟩
      · intro t ht hqt
        rcases List.mem_cons.mp ht with rfl | ht2
        · exact absurd hqt hq
        · exact h2 t ht2 hqt

/-- `get_chi2` on a single aggregated worker: the test is skipped. -/
lemma get_chi2_one_worker (cdf : ℝ → ℕ → ℝ) (tasks : List Task)
    (bad_users : List String) (h : (users_of tasks bad_users).length = 1) :
    get_chi2 cdf tasks bad_users
      = { chi2 := .nan, dof := 0, p := .nan, residual := [] } := by
  unfold get_chi2
  dsimp only
  rw [if_neg (by omega), if_pos h]

/-- `get_chi2` with at least two workers but a single non-empty outcome
column: `p = 1` and `dof = (rows−1)·2`. -/
lemma get_chi2_one_column (cdf : ℝ → ℕ → ℝ) (tasks : List Task)
    (bad_users : List String) (h2 : 2 ≤ (users_of tasks bad_users).length)
    (h1 : columns_not_zero ((users_of tasks bad_users).map row_of) = 1) :
    get_chi2 cdf tasks bad_users
      = { chi2 := .val 0, dof := ((users_of tasks bad_users).length - 1) * 2,
          p := .val 1, residual := [] } := by
  unfold get_chi2
  dsimp only
  rw [if_neg (by omega), if_neg (by omega), if_neg (by omega), if_pos h1]

end Util

/-- A constant stand-in for the SciPy chi-squared cdf, used to
instantiate the `cdf` parameter in concrete computations (the degenerate
branches of `get_chi2` never call it). -/
def cdf0 : ℝ → ℕ → ℝ := fun _ _ => 0

/-- Claim C6: `get_chi2` declares the degenerate inputs homogeneous —
with exactly one aggregated worker it skips the test (NaN statistics,
`dof = 0`), and with at least two workers but a single non-empty outcome
column it returns `p = 1`. -/
theorem claim_C6 (cdf : ℝ → ℕ → ℝ) (tasks : List Fishtest.Task)
    (bad_users : List String) :
    ((Util.users_of tasks bad_users).length = 1 →
      Util.get_chi2 cdf tasks bad_users
        = { chi2 := .nan, dof := 0, p := .nan, residual := [] })
    ∧ (2 ≤ (Util.users_of tasks bad_users).length →
        Util.columns_not_zero ((Util.users_of tasks bad_users).map Util.row_of) = 1 →
        (Util.get_chi2 cdf tasks bad_users).p = Util.FV.val 1) :=
  ⟨Util.get_chi2_one_worker cdf tasks bad_users,
   fun h2 h1 => by rw [Util.get_chi2_one_column cdf tasks bad_users h2 h1]⟩

/-- A single task of worker `a` with one win. -/
def taskC6a : Fishtest.Task :=
  { worker_info := some { key := "a" }, stats := some { wins := 1 } }

/-- A task of worker `a` with one draw. -/
def taskC6d1 : Fishtest.Task :=
  { worker_info := some { key := "a" }, stats := some { draws := 1 } }

/-- A task of worker `b` with one draw. -/
def taskC6d2 : Fishtest.Task :=
  { worker_info := some { key := "b" }, stats := some { draws := 1 } }

/-- Witness for claim C6: one worker gives the skipped test; two workers
with only draws give `p = 1`. -/
theorem claim_C6_witness :
    Util.get_chi2 cdf0 [taskC6a] []
      = { chi2 := .nan, dof := 0, p := .nan, residual := [] }
    ∧ (Util.get_chi2 cdf0 [taskC6d1, taskC6d2] []).p = Util.FV.val 1 := by
  have husers : Util.users_of [taskC6d1, taskC6d2] []
      = [("a", (0, 0, 1)), ("b", (0, 0, 1))] := by rfl
  have hrange : List.range 3 = [0, 1, 2] := rfl
  have hcnz : Util.columns_not_zero
      ((Util.users_of [taskC6d1, taskC6d2] []).map Util.row_of) = 1 := by
    rw [husers]
    simp only [Util.columns_not_zero, Util.column_sums, Util.row_of, List.map_cons,
      List.map_nil, List.headI, List.length_cons, List.length_nil, hrange,
      List.getD, List.sum_cons, List.sum_nil, List.getElem?_cons_zero,
      List.getElem?_cons_succ, Option.getD_some, List.get?_cons_zero]
    norm_num
  exact ⟨(claim_C6 cdf0 [taskC6a] []).1 (by rfl),
    (claim_C6 cdf0 [taskC6d1, taskC6d2] []).2 (by rw [husers]; rfl) hcnz⟩

/-- The crashing task of the C5 counterexample: worker `w` with one win
and 4 crashes. -/
def taskC5 : Fishtest.Task :=
  { num_games := 200, pending := false, active := false,
    worker_info := some { username := "u", unique_key := "k", key := "w" },
    stats := some { wins := 1, crashes := 4 } }

/-- The run of the C5 counterexample: a single worker whose tasks
crashed more than 3 times. -/
def runC5 : Fishtest.Run :=
  { run_id := 1, args := { num_games := 1000 }, tasks := [taskC5],
    results_stale := true }

/-- `get_chi2` on the C5 run skips the test (one worker): `p` is NaN. -/
lemma get_chi2_runC5 :
    Util.get_chi2 cdf0 runC5.tasks []
      = { chi2 := .nan, dof := 0, p := .nan, residual := [] } :=
  Util.get_chi2_one_worker cdf0 runC5.tasks [] (by rfl)

/-- `calculate_residuals` on the C5 run flags worker `w`. -/
lemma calculate_residuals_runC5_bad :
    (Util.calculate_residuals cdf0 runC5).1.bad_users = ["w"] := by
  have hpass : (Util.residual_pass Util.FV.nan [] [] runC5.tasks none).2
      = some ("w", 8) := by
    simp only [runC5, Util.residual_pass, Util.get_worker_key, taskC5,
      List.not_mem_nil, if_false, Util.effective_residual, Util.residual_of,
      List.find?_nil, Util.FV.lt]
    norm_num
  simp only [Util.calculate_residuals, get_chi2_runC5, hpass]

/-- Claim C5 (counterexample): in a run whose single worker has more
than 3 crashes, the crash override sets the residual to `8.0` and the
worker is added to `bad_users` although the chi-squared p-value (NaN
here, since the test was skipped) is not below `0.001` — the
qualification in the code is a disjunction `p < 0.001 or residual > 7`,
not the conjunction of the claim. -/
theorem claim_C5_counterexample :
    (Util.calculate_residuals cdf0 runC5).1.bad_users = ["w"]
    ∧ ¬ Util.FV.lt (Util.get_chi2 cdf0 runC5.tasks []).p (Util.FV.val 0.001) := by
  refine ⟨calculate_residuals_runC5_bad, ?_⟩
  rw [get_chi2_runC5]
  exact fun h => h

/-- Claim C5 (amended): `calculate_residuals` returns at most one bad
user, and a worker enters `bad_users` only if it qualifies — the
chi-squared p-value is below `0.001` OR its (crash-overridden) residual
exceeds 7 — and its residual is maximal among the qualifying tasks. -/
theorem claim_C5_amended (cdf : ℝ → ℕ → ℝ) (run : Fishtest.Run) :
    (Util.calculate_residuals cdf run).1.bad_users.length ≤ 1
    ∧ ∀ k ∈ (Util.calculate_residuals cdf run).1.bad_users,
        ∃ t ∈ run.tasks, Util.get_worker_key t = k
          ∧ Util.qualifies (Util.get_chi2 cdf run.tasks []).p
              ((Util.get_chi2 cdf run.tasks []).residual) t
          ∧ ∀ t2 ∈ run.tasks,
              Util.qualifies (Util.get_chi2 cdf run.tasks []).p
                ((Util.get_chi2 cdf run.tasks []).residual) t2 →
              Util.effective_residual ((Util.get_chi2 cdf run.tasks []).residual) t2
                ≤ Util.effective_residual ((Util.get_chi2 cdf run.tasks []).residual) t := by
  rcases hout : (Util.residual_pass (Util.get_chi2 cdf run.tasks []).p
      ((Util.get_chi2 cdf run.tasks []).residual) [] run.tasks none).2 with _ | w
  · constructor
    · simp only [Util.calculate_residuals, hout]
      exact Nat.zero_le 1
    · intro k hk
      simp only [Util.calculate_residuals, hout, List.not_mem_nil] at hk
  · obtain ⟨h1, h2, -⟩ := Util.residual_pass_spec (Util.get_chi2 cdf run.tasks []).p
      ((Util.get_chi2 cdf run.tasks []).residual) run.tasks none w hout
    rcases h1 with h1 | ⟨t, ht, hk, hr, hqq⟩
    · cases h1
    constructor
    · simp only [Util.calculate_residuals, hout]
      exact le_refl 1
    · intro k hkmem
      simp only [Util.calculate_residuals, hout, List.mem_singleton] at hkmem
      refine ⟨t, ht, by rw [hk, hkmem], hqq, ?_⟩
      intro t2 ht2 hq2
      rw [hr]
      exact h2 t2 ht2 hq2

/-- Witness for the amended claim C5 at the concrete C5 run: the
cardinality bound and, for the flagged worker `w`, the existence of a
qualifying maximal task. -/
theorem claim_C5_amended_witness :
    (Util.calculate_residuals cdf0 runC5).1.bad_users.length ≤ 1
    ∧ ∃ t ∈ runC5.tasks, Util.get_worker_key t = "w"
        ∧ Util.qualifies (Util.get_chi2 cdf0 runC5.tasks []).p
            ((Util.get_chi2 cdf0 runC5.tasks []).residual) t
        ∧ ∀ t2 ∈ runC5.tasks,
            Util.qualifies (Util.get_chi2 cdf0 runC5.tasks []).p
              ((Util.get_chi2 cdf0 runC5.tasks []).residual) t2 →
            Util.effective_residual ((Util.get_chi2 cdf0 runC5.tasks []).residual) t2
              ≤ Util.effective_residual ((Util.get_chi2 cdf0 runC5.tasks []).residual) t :=
  ⟨(claim_C5_amended cdf0 runC5).1,
   (claim_C5_amended cdf0 runC5).2 "w"
     (by rw [calculate_residuals_runC5_bad]; exact List.mem_singleton_self _)⟩

namespace RunDb

open Classical Fishtest

/-- `spsa_param_clip_round` from `rundb.py`.  The uniform draw of the
randomized rounding (`random.uniform(0,1)`) is the explicit argument
`u`. -/
def spsa_param_clip_round (param : SpsaParam) (increment : ℚ)
    (clipping : String) (rounding : String) (u : ℚ) : ℚ :=
  let value :=
    if clipping = "old" then
      let value := param.theta + increment
      if value < param.min then param.min
      else if value > param.max then param.max
      else value
    else
      -- clipping == 'careful'
      let inc := min |increment|
        (min (|param.theta - param.min| / 2) (|param.theta - param.max| / 2))
      if inc > 0 then param.theta + inc * increment / |increment|
      else
        -- revert to old behavior to bounce off boundary
        let value := param.theta + increment
        if value < param.min then param.min
        else if value > param.max then param.max
        else value
  -- deterministic rounding calls round() inside the worker
  if rounding = "randomized" then ((⌊value + u⌋ : ℤ) : ℚ) else value

/-- Modelled from the spec sentence of claim C8: under careful clipping,
"limit the absolute step to half the distance to whichever bound is
being approached; if reduced to zero, fall back to old". -/
def spsa_clip_careful_claim (param : SpsaParam) (increment : ℚ) : ℚ :=
  let bound := if 0 ≤ increment then param.max else param.min
  let inc := min |increment| (|param.theta - bound| / 2)
  if inc > 0 then param.theta + inc * increment / |increment|
  else
    let value := param.theta + increment
    if value < param.min then param.min
    else if value > param.max then param.max
    else value

/-- `generate_tasks` from `rundb.py` with `chunk_size = 200`. -/
def generate_tasks (remaining : ℕ) : List Task :=
  if h : remaining = 0 then []
  else
    let task_size := min 200 remaining
    { num_games := task_size, pending := true, active := false }
      :: generate_tasks (remaining - task_size)
termination_by remaining
decreasing_by
  omega

/-- `get_results run` from `rundb.py` (the `save_run` persistence flag
only controls buffering, which is cache bookkeeping outside this model):
returns the aggregated results, recomputing and caching them on the run
when they are stale.  The pentanomial vector is propagated only while
every task with stats carries one. -/
def get_results (run : Run) : TaskStats × Run :=
  if run.results_stale = false then (run.results, run)
  else
    let agg := run.tasks.foldl
      (fun (acc : TaskStats × Bool × List ℕ) task =>
        match task.stats with
        | none => acc
        | some st =>
          let r := acc.1
          let r := { r with
            wins := r.wins + st.wins
            losses := r.losses + st.losses
            draws := r.draws + st.draws
            crashes := r.crashes + st.crashes
            time_losses := r.time_losses + st.time_losses }
          match st.pentanomial, acc.2.1 with
          | some q, true =>
            (r, true, (List.range 5).map (fun i => acc.2.2.getD i 0 + q.getD i 0))
          | _, _ => (r, false, acc.2.2))
      ({ wins := 0, losses := 0, draws := 0, crashes := 0, time_losses := 0,
         pentanomial := none }, true, [0, 0, 0, 0, 0])
    let results := if agg.2.1 then { agg.1 with pentanomial := some agg.2.2 } else agg.1
    (results, { run with results_stale := false, results := results })

/-- The results dictionary fed to `update_SPRT`. -/
def sprt_results_of (r : TaskStats) : StatUtil.SprtResults :=
  { wins := r.wins, losses := r.losses, draws := r.draws, pentanomial := r.pentanomial }

/-- The `for task in run['tasks']: ... run['tasks'].remove(task)` pattern
of `purge_run`: Python list mutation while iterating skips the element
after a removed one.  Returns `(kept, removed)`. -/
def remove_iter (p : Task → Bool) : List Task → List Task × List Task
  | [] => ([], [])
  | [t] => if p t then ([], [t]) else ([t], [])
  | t1 :: t2 :: rest =>
    if p t1 then
      let r := remove_iter p rest
      (t2 :: r.1, t1 :: r.2)
    else
      let r := remove_iter p (t2 :: rest)
      (t1 :: r.1, r.2)

/-- The purged-branch tail of `purge_run`: regenerate the chunks missing
to reach `num_games`, reopen the run and reset the SPRT state. -/
def reopen_run (results : TaskStats) (run0 : Run) : Run :=
  let played := results.wins + results.losses + results.draws
  let run := if played < run0.args.num_games then
      { run0 with tasks := run0.tasks ++ generate_tasks (run0.args.num_games - played) }
    else run0
  let run := { run with finished := false }
  match run.args.sprt with
  | some sprt =>
    -- the 'state' key of the sprt record is always present here
    let sprt2 := { StatUtil.update_SPRT (sprt_results_of results) sprt with state := "" }
    { run with args := { run.args with sprt := some sprt2 } }
  | none => run

/-- `purge_run run` from `rundb.py`: flag the bad workers found by the
chi-squared test, move their tasks to `bad_tasks`, and if anything was
purged regenerate the missing chunks, reset the SPRT state and reopen
the run (`reopen_run`).  Returns the `purged` flag and the new run. -/
def purge_run (cdf : ℝ → ℕ → ℝ) (run0 : Run) : Bool × Run :=
  let cr := Util.calculate_residuals cdf run0
  let chi2 := cr.1
  let run := cr.2
  -- 'bad_tasks' is created when absent; the model field defaults to []
  let rem := remove_iter (fun t => decide (Util.get_worker_key t ∈ chi2.bad_users)) run.tasks
  let purged := !rem.2.isEmpty
  let run := { run with
    tasks := rem.1
    bad_tasks := run.bad_tasks ++ rem.2.map (fun t => { t with bad := true }) }
  if purged = true then
    let run := { run with results_stale := true }
    let gr := get_results run
    (true, reopen_run gr.1 gr.2)
  else (false, run)

/-- The task clearing at the top of `stop_run`: drop tasks without
stats and clear the `pending` and `active` flags of the rest. -/
def clear_tasks (run0 : Run) : Run :=
  { run0 with
    tasks := (run0.tasks.filter (fun t => t.stats.isSome)).map
      (fun t => { t with pending := false, active := false }) }

/-- The not-purged tail of `stop_run`: mark the run finished, refresh
the results and the presentation record, and derive the styling flags. -/
def finish_run (fmt : TaskStats → Run → ResultsInfo) (run0 : Run) : Run :=
  -- the run is now finished and will no longer be updated
  let run := { run0 with finished := true }
  let gr := get_results run
  let run := gr.2
  let ri := fmt gr.1 run
  let run := { run with results_info := some ri }
  if ri.style = "#44EB44" then { run with is_green := true }
  else if ri.style = "yellow" then { run with is_yellow := true }
  else run

/-- `stop_run` from `rundb.py` in its `run = None` (fetch and persist)
form.  The SPSA session clearing (`clear_params`), the cache bookkeeping
(`buffer`, `task_time`) and the forum notification are external
collaborators; the `format_results` presentation function is the
parameter `fmt`. -/
def stop_run (cdf : ℝ → ℕ → ℝ) (fmt : TaskStats → Run → ResultsInfo) (run0 : Run) : Run :=
  let run := clear_tasks run0
  let pr := if run.args.auto_purge && run.args.spsa.isNone then purge_run cdf run
    else (false, run)
  if pr.1 = true then
    let run := pr.2
    let gr := get_results run
    { gr.2 with results_info := some (fmt gr.1 gr.2) }
  else finish_run fmt pr.2

/-- The `spsa` dictionary of a worker report. -/
structure SpsaReport where
  num_games : ℕ := 0
  wins : ℕ := 0
  losses : ℕ := 0
  draws : ℕ := 0

/-- `update_spsa` from `rundb.py`.  The per-worker perturbation vector
that the source fetches from the session store with `get_params` is the
argument `w_params` (the source indexes `w_params[idx]` for each
parameter; the zip truncates where Python would raise). -/
def update_spsa (w_params : List WParam) (run : Run) (spsa_results : SpsaReport) : Run :=
  match run.args.spsa with
  | none => run
  | some spsa0 =>
    let spsa := { spsa0 with clipping := some (spsa0.clipping.getD "old") }
    let spsa := { spsa with iter := spsa.iter + spsa_results.num_games / 2 }
    let spsa := { spsa with param_history := some (spsa.param_history.getD []) }
    let L := spsa.params.length
    let freq : ℕ := max 100 (L * 25)
    let maxlen : ℚ := 250000 / (freq : ℚ)
    let history := spsa.param_history.getD []
    let grow_summary :=
      decide ((history.length : ℚ) < min maxlen ((spsa.iter : ℚ) / (freq : ℚ)))
    let result : ℤ := (spsa_results.wins : ℤ) - (spsa_results.losses : ℤ)
    let updated := List.zipWith
      (fun (param : SpsaParam) (w : WParam) =>
        let inc := w.R * w.c * (result : ℚ) * (w.flip : ℚ)
        { param with
          theta := spsa_param_clip_round param inc (spsa.clipping.getD "old") "deterministic" 0 })
      spsa.params w_params
    let summary := List.zipWith
      (fun (param : SpsaParam) (w : WParam) =>
        ({ theta := param.theta, R := w.R, c := w.c } : SpsaSummaryEntry))
      updated w_params
    let spsa := { spsa with
      params := updated
      param_history := if grow_summary then some (history ++ [summary]) else some history }
    { run with args := { run.args with spsa := some spsa } }

/-- Total game count of a stats dictionary (`count_games` in
`sync_update_task`). -/
def count_games (st : TaskStats) : ℕ := st.wins + st.losses + st.draws

/-- `sync_update_task` from `rundb.py` as a pure function: validates the
report, commits it, folds in the SPSA feedback, re-evaluates the SPRT
and finalizes the task and the run.  Returns the `task_alive` response
and the new run.  `now` stands for `datetime.utcnow()` and `w_params`
for the session-store lookup of `update_spsa`. -/
def sync_update_task (cdf : ℝ → ℕ → ℝ) (fmt : TaskStats → Run → ResultsInfo)
    (now : ℕ) (w_params : List WParam) (run : Run) (task_id : ℕ)
    (stats : TaskStats) (nps : ℚ) (spsa : SpsaReport) (username : String) :
    Bool × Run :=
  if h : task_id < run.tasks.length then
    let task := run.tasks.get ⟨task_id, h⟩
    if ¬ (task.active = true ∧ task.pending = true) then (false, run)
    else if ((task.worker_info.map (fun w => w.username)).getD "") ≠ username then
      (false, run)
    else
      let num_games := count_games stats
      let old_num_games := match task.stats with
        | some st => count_games st
        | none => 0
      let spsa_games := if run.args.spsa.isSome then
          spsa.wins + spsa.losses + spsa.draws
        else 0
      if num_games < old_num_games
          ∨ (0 < spsa_games ∧ num_games ≤ 0)
          ∨ (0 < spsa_games ∧ task.stats.isSome = true ∧ num_games ≤ old_num_games) then
        (false, run)
      else if (num_games - old_num_games) % 2 ≠ 0 then
        -- the worker should only run game pairs
        (false, run)
      else if (match run.args.sprt with
          | some sp => decide (num_games % (2 * sp.batch_size) ≠ 0)
          | none => false) = true then
        (false, run)
      else
        let task := { task with stats := some stats, nps := nps }
        let finished := decide (task.num_games ≤ num_games)
        let newCores := fun (c : ℤ) =>
          c - ((task.worker_info.map (fun w => w.concurrency)).getD 0 : ℤ)
        let run := if finished then
            match run.cores with
            | some c => { run with cores := some (newCores c) }
            | none => run
          else run
        -- pending is cleared before active to avoid racing request_task
        let task := if finished then { task with pending := false, active := false }
          else task
        let run := { run with tasks := run.tasks.set task_id task }
        let all_tasks_finished := finished
          && ! run.tasks.any (fun t => t.pending || t.active)
        let task := { task with last_updated := now }
        let run := { run with
          tasks := run.tasks.set task_id task
          last_updated := now
          results_stale := true }
        let run := if run.args.spsa.isSome && decide (spsa_games = spsa.num_games) then
            update_spsa w_params run spsa
          else run
        let sprtStep := match run.args.sprt with
          | some sprt =>
            let gr := get_results run
            let sprt2 := StatUtil.update_SPRT (sprt_results_of gr.1) sprt
            let run2 := { gr.2 with args := { gr.2.args with sprt := some sprt2 } }
            (decide (sprt2.state ≠ ""), run2)
          | none => (false, run)
        if sprtStep.1 then (false, stop_run cdf fmt sprtStep.2)
        else if all_tasks_finished then (task.active, stop_run cdf fmt sprtStep.2)
        else (task.active, sprtStep.2)
  else (false, run)

/-- The in-memory dispatcher state of `RunDb`: the cached candidate list
`task_runs` and the compiled-runs memo `worker_runs` (worker unique key
to run ids). -/
structure DispatcherState where
  task_runs : List Run := []
  worker_runs : List (String × List ℕ) := []

/-- The response of `sync_request_task`: the per-IP machine limit denial
`{task_waiting: False, hit_machine_limit: True}`, the plain miss
`{task_waiting: False}`, or an assignment `{run, task_id}`. -/
inductive RequestResult where
  | limit
  | waiting
  | assigned (run_id : ℕ) (task_id : ℕ)

/-- The condition counted by `sync_request_task`: an active task whose
worker remote address equals the given one. -/
def conn_match (remote_addr : String) (t : Task) : Bool :=
  t.active && (((t.worker_info.map (fun w => w.remote_addr)).getD "") == remote_addr)

/-- The `connections` count of `sync_request_task`: active tasks over
the cached runs whose worker remote address equals the given one. -/
def count_connections (remote_addr : String) (runs : List Run) : ℕ :=
  (runs.map (fun run => (run.tasks.filter (conn_match remote_addr)).length)).sum

/-- The sort key of the candidate list:
`(-priority, cores/itp*100, -itp, run_id)`. -/
def run_sort_key (r : Run) : ℚ × ℚ × ℚ × ℕ :=
  (-r.args.priority, ((r.cores.getD 0 : ℤ) : ℚ) / r.args.itp * 100, -r.args.itp, r.run_id)

/-- Lexicographic comparison of candidate sort keys. -/
def run_le (a b : Run) : Prop :=
  (run_sort_key a).1 < (run_sort_key b).1
    ∨ ((run_sort_key a).1 = (run_sort_key b).1
      ∧ ((run_sort_key a).2.1 < (run_sort_key b).2.1
        ∨ ((run_sort_key a).2.1 = (run_sort_key b).2.1
          ∧ ((run_sort_key a).2.2.1 < (run_sort_key b).2.2.1
            ∨ ((run_sort_key a).2.2.1 = (run_sort_key b).2.2.1
              ∧ (run_sort_key a).2.2.2 ≤ (run_sort_key b).2.2.2)))))

instance run_le_decidable : DecidableRel run_le := fun a b => by
  unfold run_le
  infer_instance

/-- `sum_cores` from `rundb.py`: total concurrency of the active
tasks. -/
def sum_cores_val (run : Run) : ℤ :=
  (run.tasks.filter (fun t => t.active)).foldl
    (fun c t => c + ((t.worker_info.map (fun w => w.concurrency)).getD 0 : ℤ)) 0

/-- The TT-memory demand of a run for this worker:
`(new_hash + base_hash) * (max_threads // threads)` when the worker
reports its memory (the `Hash=N` parsing is the `new_hash`/`base_hash`
model fields). -/
def need_tt (wi : WorkerInfo) (run : Run) : ℕ :=
  if 0 < wi.max_memory then
    (run.args.new_hash + run.args.base_hash) * (wi.concurrency / run.args.threads)
  else 0

/-- The per-run admission test of the dispatcher loop. -/
def run_acceptable (wi : WorkerInfo) (limit : Bool)
    (worker_runs : List (String × List ℕ)) (run : Run) : Bool :=
  run.approved
    && (!limit || decide (run.run_id ∈
        ((worker_runs.find? (fun q => q.1 = wi.unique_key)).map (fun q => q.2)).getD []))
    && decide (run.args.threads ≤ wi.concurrency)
    && decide (wi.min_threads ≤ run.args.threads)
    && decide (need_tt wi run ≤ wi.max_memory)

/-- The core cap of the inner dispatcher loop: for an SPSA run the
accumulated active cores may not exceed `40000/sqrt(#params)` — decided
here by comparing squares, `cores > 40000/sqrt(n) ⟺ cores²·n > 40000²`
for nonnegative cores — and for SPRT runs the cap is `10⁶`. -/
def cores_exceeded (spsa : Option Spsa) (cores : ℕ) : Bool :=
  match spsa with
  | some sp => decide (40000 ^ 2 < cores ^ 2 * sp.params.length)
  | none => decide (1000000 < cores)

/-- The inner loop of `sync_request_task` over the tasks of one run:
accumulate the cores of active tasks (breaking on the core cap) and
claim the first pending inactive task by stamping the worker info,
the update time and `active = True`.  Returns the claimed task id and
the updated task list. -/
def find_task (wi : WorkerInfo) (now : ℕ) (spsa : Option Spsa) :
    List Task → ℕ → ℕ → Option (ℕ × List Task)
  | [], _, _ => none
  | task :: rest, idx, cores =>
    if task.active then
      let cores2 := cores + (task.worker_info.map (fun w => w.concurrency)).getD 0
      if cores_exceeded spsa cores2 then none
      else
        match find_task wi now spsa rest (idx + 1) cores2 with
        | some (tid, rest2) => some (tid, task :: rest2)
        | none => none
    else if task.pending then
      some (idx, { task with worker_info := some wi, last_updated := now, active := true }
        :: rest)
    else
      match find_task wi now spsa rest (idx + 1) cores with
      | some (tid, rest2) => some (tid, task :: rest2)
      | none => none

/-- The outer loop of `sync_request_task` over the candidate runs: the
first acceptable run in which a task can be claimed; on success the run
is updated (claimed task, recomputed `cores` via `sum_cores`). -/
def find_run (wi : WorkerInfo) (now : ℕ) (limit : Bool)
    (worker_runs : List (String × List ℕ)) :
    List Run → Option (ℕ × ℕ × List Run)
  | [] => none
  | run :: rest =>
    if run_acceptable wi limit worker_runs run then
      match find_task wi now run.args.spsa run.tasks 0 0 with
      | some (tid, tasks2) =>
        let run2 := { run with tasks := tasks2 }
        let run2 := { run2 with cores := some (sum_cores_val run2) }
        some (run2.run_id, tid, run2 :: rest)
      | none =>
        match find_run wi now limit worker_runs rest with
        | some (rid, tid, rest2) => some (rid, tid, run :: rest2)
        | none => none
    else
      match find_run wi now limit worker_runs rest with
      | some (rid, tid, rest2) => some (rid, tid, run :: rest2)
      | none => none

/-- The compiled-runs memo update of `sync_request_task`. -/
def worker_runs_add (wr : List (String × List ℕ)) (key : String) (rid : ℕ) :
    List (String × List ℕ) :=
  match wr.find? (fun q => q.1 = key) with
  | none => wr ++ [(key, [rid])]
  | some _ => wr.map (fun q =>
      if q.1 = key then (q.1, if rid ∈ q.2 then q.2 else q.2 ++ [rid]) else q)

/-- `sync_request_task` from `rundb.py` on a given dispatcher state.
The 60-second rebuild of the candidate list is timer and store driven
and outside this model; `machine_limit` is the per-user limit from the
user database (default 16).  The GitHub-budget test
`remaining <= 2*sqrt(limit)` is decided by comparing squares. -/
def sync_request_task (wi : WorkerInfo) (machine_limit : ℕ) (now : ℕ)
    (st : DispatcherState) : RequestResult × DispatcherState :=
  let connections := count_connections wi.remote_addr st.task_runs
  if machine_limit ≤ connections then (.limit, st)
  else
    let limit : Bool := match wi.rate with
      | some r => decide (r.1 * r.1 ≤ 4 * r.2)
      | none => false
    match find_run wi now limit st.worker_runs st.task_runs with
    | none => (.waiting, st)
    | some (rid, tid, runs2) =>
      (.assigned rid tid,
       { task_runs := List.insertionSort run_le runs2,
         worker_runs := worker_runs_add st.worker_runs wi.unique_key rid })

/-- Claiming a task adds exactly one active task matching the caller
(the stamped worker info carries the caller remote address). -/
lemma find_task_count (wi : WorkerInfo) (now : ℕ) (spsa : Option Spsa) :
    ∀ (tasks : List Task) (idx cores tid : ℕ) (tasks2 : List Task),
      find_task wi now spsa tasks idx cores = some (tid, tasks2) →
      (tasks2.filter (conn_match wi.remote_addr)).length
        = (tasks.filter (conn_match wi.remote_addr)).length + 1 := by
  intro tasks
  induction tasks with
  | nil =>
    intro idx cores tid tasks2 h
    simp [find_task] at h
  | cons task rest ih =>
    intro idx cores tid tasks2 h
    simp only [find_task] at h
    by_cases hact : task.active = true
    · rw [if_pos hact] at h
      by_cases hexc : cores_exceeded spsa
          (cores + (task.worker_info.map (fun w => w.concurrency)).getD 0) = true
      · rw [if_pos hexc] at h
        cases h
      · rw [if_neg hexc] at h
        rcases hrec : find_task wi now spsa rest (idx + 1)
            (cores + (task.worker_info.map (fun w => w.concurrency)).getD 0)
          with _ | ⟨tid2, rest2⟩
        · rw [hrec] at h
          cases h
        · rw [hrec] at h
          have htasks2 : tasks2 = task :: rest2 :=
            (congrArg Prod.snd (Option.some.inj h)).symm
          have hlen := ih (idx + 1) _ tid2 rest2 hrec
          rw [htasks2]
          simp only [List.filter_cons]
          split_ifs <;> simp [hlen]
    · rw [if_neg hact] at h
      by_cases hpend : task.pending = true
      · rw [if_pos hpend] at h
        have htasks2 : tasks2
            = { task with worker_info := some wi, last_updated := now, active := true }
              :: rest :=
          (congrArg Prod.snd (Option.some.inj h)).symm
        rw [htasks2]
        simp only [List.filter_cons, conn_match]
        have h0 : task.active = false := by
          cases hb : task.active
          · rfl
          · exact absurd hb hact
        simp [h0]
      · rw [if_neg hpend] at h
        rcases hrec : find_task wi now spsa rest (idx + 1) cores with _ | ⟨tid2, rest2⟩
        · rw [hrec] at h
          cases h
        · rw [hrec] at h
          have htasks2 : tasks2 = task :: rest2 :=
            (congrArg Prod.snd (Option.some.inj h)).symm
          have hlen := ih (idx + 1) cores tid2 rest2 hrec
          rw [htasks2]
          simp only [List.filter_cons]
          split_ifs <;> simp [hlen]

/-- A successful dispatch adds exactly one matching active task over the
candidate list. -/
lemma find_run_count (wi : WorkerInfo) (now : ℕ) (limit : Bool)
    (wr : List (String × List ℕ)) :
    ∀ (runs : List Run) (rid tid : ℕ) (runs2 : List Run),
      find_run wi now limit wr runs = some (rid, tid, runs2) →
      count_connections wi.remote_addr runs2
        = count_connections wi.remote_addr runs + 1 := by
  intro runs
  induction runs with
  | nil =>
    intro rid tid runs2 h
    simp [find_run] at h
  | cons run rest ih =>
    intro rid tid runs2 h
    simp only [find_run] at h
    by_cases hacc : run_acceptable wi limit wr run = true
    · rw [if_pos hacc] at h
      rcases htask : find_task wi now run.args.spsa run.tasks 0 0
        with _ | ⟨tid2, tasks2⟩
      · rw [htask] at h
        rcases hrec : find_run wi now limit wr rest with _ | ⟨rid2, tid3, rest2⟩
        · rw [hrec] at h
          cases h
        · rw [hrec] at h
          have hruns2 : runs2 = run :: rest2 :=
            (congrArg (fun t => t.2.2) (Option.some.inj h)).symm
          have hrc := ih rid2 tid3 rest2 hrec
          rw [hruns2]
          simp only [count_connections, List.map_cons, List.sum_cons] at *
          omega
      · rw [htask] at h
        dsimp only at h
        have hruns2 := congrArg (fun t => t.2.2) (Option.some.inj h)
        dsimp only at hruns2
        have htc := find_task_count wi now run.args.spsa run.tasks 0 0 tid2 tasks2 htask
        rw [← hruns2]
        simp only [count_connections, List.map_cons, List.sum_cons]
        omega
    · rw [if_neg hacc] at h
      rcases hrec : find_run wi now limit wr rest with _ | ⟨rid2, tid3, rest2⟩
      · rw [hrec] at h
        cases h
      · rw [hrec] at h
        have hruns2 : runs2 = run :: rest2 :=
          (congrArg (fun t => t.2.2) (Option.some.inj h)).symm
        have hrc := ih rid2 tid3 rest2 hrec
        rw [hruns2]
        simp only [count_connections, List.map_cons, List.sum_cons] at *
        omega

/-- Permutations of the candidate list do not change the connection
count. -/
lemma count_connections_perm (ra : String) (l1 l2 : List Run) (h : l1.Perm l2) :
    count_connections ra l1 = count_connections ra l2 :=
  List.Perm.sum_eq (h.map _)

end RunDb

/-- The SPSA parameter of the C8 counterexample: `theta` sits on the
lower bound. -/
def paramC8 : Fishtest.SpsaParam := { name := "p", theta := 0, min := 0, max := 100 }

/-- Claim C8 (counterexample): with `theta = min = 0`, `max = 100` and
increment `300` (approaching the upper bound, 50 away in half-distance),
the code caps by the half-distance to the NEAREST bound (zero here),
falls back to the old saturating behavior and returns `100`; the claim
(cap by the bound being approached, fall back only when that cap is
zero) predicts `50`, and the returned step `100` even exceeds the
claimed cap `50`. -/
theorem claim_C8_counterexample :
    RunDb.spsa_param_clip_round paramC8 300 "careful" "deterministic" 0 = 100
    ∧ RunDb.spsa_clip_careful_claim paramC8 300 = 50
    ∧ ¬ (|RunDb.spsa_param_clip_round paramC8 300 "careful" "deterministic" 0
          - paramC8.theta|
        ≤ min |(300 : ℚ)| (|paramC8.theta - paramC8.max| / 2)) := by
  refine ⟨?_, ?_, ?_⟩
  · norm_num [RunDb.spsa_param_clip_round, paramC8]
  · norm_num [RunDb.spsa_clip_careful_claim, paramC8]
  · norm_num [RunDb.spsa_param_clip_round, paramC8]

/-- Claim C8 (amended): under careful clipping with deterministic
rounding, the absolute step equals the minimum of the increment size and
the half-distances to BOTH bounds whenever that minimum is positive;
only when the minimum is zero does the code fall back to the old
saturating behavior. -/
theorem claim_C8_amended (param : Fishtest.SpsaParam) (increment u : ℚ) :
    (0 < min |increment|
        (min (|param.theta - param.min| / 2) (|param.theta - param.max| / 2)) →
      |RunDb.spsa_param_clip_round param increment "careful" "deterministic" u
          - param.theta|
        = min |increment|
            (min (|param.theta - param.min| / 2) (|param.theta - param.max| / 2)))
    ∧ (min |increment|
          (min (|param.theta - param.min| / 2) (|param.theta - param.max| / 2)) = 0 →
        RunDb.spsa_param_clip_round param increment "careful" "deterministic" u
          = (if param.theta + increment < param.min then param.min
             else if param.theta + increment > param.max then param.max
             else param.theta + increment)) := by
  constructor
  · intro hpos
    have hinc : increment ≠ 0 :=
      abs_pos.mp (lt_of_lt_of_le hpos (min_le_left _ _))
    simp only [RunDb.spsa_param_clip_round]
    rw [if_neg (by decide), if_neg (by decide), if_pos hpos]
    have habs : |increment| ≠ 0 := abs_ne_zero.mpr hinc
    rw [add_sub_cancel_left]
    rw [abs_div, abs_mul, abs_abs, abs_of_pos hpos, mul_div_assoc, div_self habs,
      mul_one]
  · intro hzero
    simp only [RunDb.spsa_param_clip_round]
    rw [if_neg (by decide), if_neg (by decide), if_neg (by rw [hzero]; exact lt_irrefl 0)]

/-- Witness for the amended claim C8: `theta = 10` in `[0, 100]` with
increment `50` — the step is capped at `5`, half the distance to the
nearer bound. -/
theorem claim_C8_amended_witness :
    |RunDb.spsa_param_clip_round
        { name := "p", theta := 10, min := 0, max := 100 } 50 "careful" "deterministic" 0
      - ({ name := "p", theta := 10, min := 0, max := 100 } : Fishtest.SpsaParam).theta|
      = min |(50 : ℚ)| (min (|(10 : ℚ) - 0| / 2) (|(10 : ℚ) - 100| / 2)) := by
  have h := (claim_C8_amended { name := "p", theta := 10, min := 0, max := 100 } 50 0).1
    (by norm_num)
  simpa using h

/-- Claim C7: if the caller IP already holds at least `machine_limit`
active tasks, `sync_request_task` denies with the machine-limit flag and
changes nothing; and whenever a task is assigned, the resulting number
of active tasks of that IP stays within the limit. -/
theorem claim_C7 (wi : Fishtest.WorkerInfo) (machine_limit now : ℕ)
    (st : RunDb.DispatcherState) :
    (machine_limit ≤ RunDb.count_connections wi.remote_addr st.task_runs →
      RunDb.sync_request_task wi machine_limit now st = (.limit, st))
    ∧ (∀ rid tid st2,
        RunDb.sync_request_task wi machine_limit now st
            = (.assigned rid tid, st2) →
        RunDb.count_connections wi.remote_addr st2.task_runs ≤ machine_limit) := by
  constructor
  · intro h
    simp only [RunDb.sync_request_task]
    rw [if_pos h]
  · intro rid tid st2 h
    simp only [RunDb.sync_request_task] at h
    by_cases hlim : machine_limit ≤ RunDb.count_connections wi.remote_addr st.task_runs
    · rw [if_pos hlim] at h
      cases Prod.mk.injEq .. ▸ h with
      | intro h1 h2 => cases h1
    · rw [if_neg hlim] at h
      rcases hfind : RunDb.find_run wi now
          (match wi.rate with
           | some r => decide (r.1 * r.1 ≤ 4 * r.2)
           | none => false) st.worker_runs st.task_runs with _ | ⟨rid2, tid2, runs2⟩
      · rw [hfind] at h
        cases Prod.mk.injEq .. ▸ h with
        | intro h1 h2 => cases h1
      · rw [hfind] at h
        have hst2 := congrArg (fun t => t.2) h
        dsimp only at hst2
        have hcount := RunDb.find_run_count wi now _ st.worker_runs st.task_runs
          rid2 tid2 runs2 hfind
        have hperm := RunDb.count_connections_perm wi.remote_addr
          (List.insertionSort RunDb.run_le runs2) runs2
          (List.perm_insertionSort RunDb.run_le runs2)
        rw [← hst2]
        dsimp only
        omega

/-- The worker and empty dispatcher state of the C7 witness. -/
def wiC7 : Fishtest.WorkerInfo := { username := "u", remote_addr := "1.2.3.4" }

/-- Witness for claim C7: with machine limit `0` every request is denied
with the machine-limit flag. -/
theorem claim_C7_witness :
    RunDb.sync_request_task wiC7 0 0 {} = (.limit, {}) :=
  (claim_C7 wiC7 0 0 {}).1 (Nat.zero_le _)

/-- The presentation stand-in for `format_results` used in concrete
computations. -/
def fmt0 : Fishtest.TaskStats → Fishtest.Run → Fishtest.ResultsInfo := fun _ _ => {}

/-- The overshoot record of the C3 run. -/
def overC3 : StatUtil.Overshoot :=
  { last_update := 0, skipped_updates := 0, ref0 := 0, m0 := 0, sq0 := 0, ref1 := 0, m1 := 0, sq1 := 0 }

/-- The SPRT record of the C3 run: `batch_size = 4` (so reports must be
multiples of 8 games), with a live overshoot record. -/
def sprtC3 : StatUtil.Sprt :=
  { alpha := 0.05, beta := 0.05, elo0 := 0, elo1 := 2, elo_model := .logistic,
    state := "", llr := 0, batch_size := 4, lower_bound := 0, upper_bound := 0,
    overshoot := some overC3, illegal_update := none, lost_samples := none }

/-- The worker of the C3 task. -/
def wiC3 : Fishtest.WorkerInfo :=
  { username := "u", remote_addr := "1.2.3.4", unique_key := "k", key := "w" }

/-- The active task of the C3 run, assigned to user `u`. -/
def taskC3 : Fishtest.Task :=
  { num_games := 200, pending := true, active := true,
    worker_info := some wiC3, stats := none }

/-- The C3 run: an SPRT run with `batch_size = 4` and one active task. -/
def runC3 : Fishtest.Run :=
  { run_id := 3, args := { num_games := 1000, sprt := some sprtC3 },
    tasks := [taskC3], results_stale := true }

/-- The 10-game report of the C3 counterexample. -/
def statsC3 : Fishtest.TaskStats := { wins := 5, losses := 5, draws := 0 }

/-- Claim C3 (counterexample): a 10-game report against `batch_size = 4`
(10 is not a multiple of 8) makes `sync_update_task` answer
`task_alive = False` and leave the run completely unchanged — in
particular the overshoot record of the run is still present, not
removed as the claim demands. -/
theorem claim_C3_counterexample :
    RunDb.sync_update_task cdf0 fmt0 7 [] runC3 0 statsC3 0 {} "u" = (false, runC3)
    ∧ ((runC3.args.sprt.map (fun sp => sp.overshoot)).getD none).isSome = true := by
  constructor
  · rfl
  · rfl

/-- Claim C3 (amended): when an SPRT report passes the earlier guards
but its game count is not a multiple of `2·batch_size`,
`sync_update_task` returns `task_alive = False` and the run — its task
stats, aggregated results and overshoot record included — is completely
unchanged (the overshoot record is NOT removed: the function returns
before ever touching the SPRT state). -/
theorem claim_C3_amended (cdf : ℝ → ℕ → ℝ)
    (fmt : Fishtest.TaskStats → Fishtest.Run → Fishtest.ResultsInfo)
    (now : ℕ) (w_params : List Fishtest.WParam) (run : Fishtest.Run)
    (task_id : ℕ) (stats : Fishtest.TaskStats) (nps : ℚ)
    (spsa : RunDb.SpsaReport) (username : String) (sp : StatUtil.Sprt)
    (h : task_id < run.tasks.length)
    (hact : (run.tasks.get ⟨task_id, h⟩).active = true)
    (hpend : (run.tasks.get ⟨task_id, h⟩).pending = true)
    (huser : ((run.tasks.get ⟨task_id, h⟩).worker_info.map
        (fun w => w.username)).getD "" = username)
    (hmono : ¬ (RunDb.count_games stats
          < (match (run.tasks.get ⟨task_id, h⟩).stats with
             | some st => RunDb.count_games st
             | none => 0)
        ∨ (0 < (if run.args.spsa.isSome then spsa.wins + spsa.losses + spsa.draws else 0)
            ∧ RunDb.count_games stats ≤ 0)
        ∨ (0 < (if run.args.spsa.isSome then spsa.wins + spsa.losses + spsa.draws else 0)
            ∧ (run.tasks.get ⟨task_id, h⟩).stats.isSome = true
            ∧ RunDb.count_games stats
              ≤ (match (run.tasks.get ⟨task_id, h⟩).stats with
                 | some st => RunDb.count_games st
                 | none => 0))))
    (hpar : ¬ (RunDb.count_games stats
        - (match (run.tasks.get ⟨task_id, h⟩).stats with
           | some st => RunDb.count_games st
           | none => 0)) % 2 ≠ 0)
    (hsprt : run.args.sprt = some sp)
    (hbatch : RunDb.count_games stats % (2 * sp.batch_size) ≠ 0) :
    RunDb.sync_update_task cdf fmt now w_params run task_id stats nps spsa username
      = (false, run) := by
  simp only [List.get_eq_getElem] at hact hpend huser hmono hpar
  simp only [RunDb.sync_update_task, List.get_eq_getElem]
  rw [dif_pos h]
  rw [if_neg (by simp [hact, hpend])]
  rw [if_neg (by simp [huser])]
  rw [if_neg hmono]
  rw [if_neg hpar]
  rw [if_pos (by rw [hsprt]; simpa using hbatch)]

/-- Witness for the amended claim C3 at the concrete C3 input. -/
theorem claim_C3_amended_witness :
    RunDb.sync_update_task cdf0 fmt0 7 [] runC3 0 statsC3 0 {} "u" = (false, runC3) :=
  claim_C3_amended cdf0 fmt0 7 [] runC3 0 statsC3 0 {} "u" sprtC3
    (by decide) (by decide) (by decide) rfl (by decide) (by decide) rfl (by decide)

namespace Util

/-- The annotation pass touches only `residual` and `residual_color`:
tasks that were cleared stay cleared. -/
lemma residual_pass_cleared (p : FV) (res : List (String × ℝ)) (bad : List String) :
    ∀ (tasks : List Fishtest.Task) (worst : Option (String × ℝ)),
      (∀ t ∈ tasks, t.active = false ∧ t.pending = false) →
      ∀ t ∈ (residual_pass p res bad tasks worst).1,
        t.active = false ∧ t.pending = false := by
  intro tasks
  induction tasks with
  | nil =>
    intro worst hall t ht
    simp [residual_pass] at ht
  | cons task rest ih =>
    intro worst hall t ht
    simp only [residual_pass] at ht
    by_cases hbad : get_worker_key task ∈ bad
    · rw [if_pos hbad] at ht
      dsimp only at ht
      rcases List.mem_cons.mp ht with rfl | ht2
      · exact hall t (List.mem_cons_self ..)
      · exact ih _ (fun t2 ht2 => hall t2 (List.mem_cons_of_mem _ ht2)) t ht2
    · rw [if_neg hbad] at ht
      dsimp only at ht
      rcases List.mem_cons.mp ht with rfl | ht2
      · have := hall task (List.mem_cons_self ..)
        exact ⟨this.1, this.2⟩
      · exact ih _ (fun t2 ht2 => hall t2 (List.mem_cons_of_mem _ ht2)) t ht2

/-- The tasks returned by `calculate_residuals` are the annotated
tasks of the single pass. -/
lemma calculate_residuals_tasks (cdf : ℝ → ℕ → ℝ) (run : Fishtest.Run) :
    (calculate_residuals cdf run).2.tasks
      = (residual_pass (get_chi2 cdf run.tasks []).p
          (get_chi2 cdf run.tasks []).residual [] run.tasks none).1 := by
  rcases hm : (residual_pass (get_chi2 cdf run.tasks []).p
      (get_chi2 cdf run.tasks []).residual [] run.tasks none).2 with _ | w
  · simp [calculate_residuals, hm]
  · simp [calculate_residuals, hm]

end Util

namespace RunDb

/-- Every task kept by the removal loop comes from the input list. -/
lemma remove_iter_kept_subset (p : Fishtest.Task → Bool) :
    ∀ (l : List Fishtest.Task), ∀ t ∈ (remove_iter p l).1, t ∈ l
  | [] => by simp [remove_iter]
  | [a] => by
    simp only [remove_iter]
    split_ifs <;> simp
  | a :: b :: rest => by
    simp only [remove_iter]
    split_ifs with hpa
    · intro t ht
      dsimp only at ht
      rcases List.mem_cons.mp ht with rfl | ht2
      · exact List.mem_cons_of_mem _ (List.mem_cons_self ..)
      · exact List.mem_cons_of_mem _
          (List.mem_cons_of_mem _ (remove_iter_kept_subset p rest t ht2))
    · intro t ht
      dsimp only at ht
      rcases List.mem_cons.mp ht with rfl | ht2
      · exact List.mem_cons_self ..
      · exact List.mem_cons_of_mem _ (remove_iter_kept_subset p (b :: rest) t ht2)

/-- Every freshly generated chunk is pending, inactive and without
stats. -/
lemma generate_tasks_spec :
    ∀ (n : ℕ), ∀ t ∈ generate_tasks n,
      t.pending = true ∧ t.active = false ∧ t.stats = none := by
  intro n
  induction n using Nat.strong_induction_on with
  | _ n ih =>
    rw [generate_tasks]
    split_ifs with h0
    · simp
    · intro t ht
      rcases List.mem_cons.mp ht with rfl | ht2
      · exact ⟨rfl, rfl, rfl⟩
      · exact ih (n - min 200 n) (by omega) t ht2

/-- `get_results` never changes the task list. -/
lemma get_results_tasks (run : Fishtest.Run) : (get_results run).2.tasks = run.tasks := by
  unfold get_results
  split_ifs <;> rfl

/-- `get_results` never changes the arguments. -/
lemma get_results_args (run : Fishtest.Run) : (get_results run).2.args = run.args := by
  unfold get_results
  split_ifs <;> rfl

/-- Every task of a reopened run is an old task or a generated pending
chunk. -/
lemma reopen_run_tasks (results : Fishtest.TaskStats) (run : Fishtest.Run) :
    ∀ t ∈ (reopen_run results run).tasks,
      t ∈ run.tasks ∨ (t.pending = true ∧ t.active = false ∧ t.stats = none) := by
  intro t ht
  unfold reopen_run at ht
  dsimp only at ht
  set runX := (if results.wins + results.losses + results.draws < run.args.num_games then { run with tasks := run.tasks ++ generate_tasks (run.args.num_games - (results.wins + results.losses + results.draws)) } else run) with hX
  rcases hsp : runX.args.sprt with _ | sp <;> simp only [hsp] at ht
  all_goals {
    by_cases hc : results.wins + results.losses + results.draws < run.args.num_games
    · rw [if_pos hc] at hX
      rw [hX] at ht
      dsimp only at ht
      rcases List.mem_append.mp ht with h1 | h2
      · exact Or.inl h1
      · exact Or.inr (generate_tasks_spec _ t h2)
    · rw [if_neg hc] at hX
      rw [hX] at ht
      exact Or.inl ht }

/-- Every task of a purged run is either an annotated survivor of the
old task list or a freshly generated pending chunk. -/
lemma purge_run_tasks_cases (cdf : ℝ → ℕ → ℝ) (run : Fishtest.Run) :
    ∀ t ∈ (purge_run cdf run).2.tasks,
      t ∈ (Util.calculate_residuals cdf run).2.tasks
        ∨ (t.pending = true ∧ t.active = false ∧ t.stats = none) := by
  intro t ht
  unfold purge_run at ht
  dsimp only at ht
  have hkept := remove_iter_kept_subset
    (fun t2 => decide (Util.get_worker_key t2
      ∈ (Util.calculate_residuals cdf run).1.bad_users))
    (Util.calculate_residuals cdf run).2.tasks
  split_ifs at ht with hpurged
  · rcases reopen_run_tasks _ _ t ht with h1 | h2
    · rw [get_results_tasks] at h1
      dsimp only at h1
      exact Or.inl (hkept t h1)
    · exact Or.inr h2
  · exact Or.inl (hkept t ht)

end RunDb

namespace RunDb

/-- Cleared tasks are neither active nor pending. -/
lemma clear_tasks_spec (run : Fishtest.Run) :
    ∀ t ∈ (clear_tasks run).tasks, t.active = false ∧ t.pending = false := by
  intro t ht
  simp only [clear_tasks, List.mem_map] at ht
  obtain ⟨t0, -, rfl⟩ := ht
  exact ⟨rfl, rfl⟩

/-- `finish_run` never changes the task list. -/
lemma finish_run_tasks (fmt : Fishtest.TaskStats → Fishtest.Run → Fishtest.ResultsInfo)
    (run : Fishtest.Run) :
    (finish_run fmt run).tasks = run.tasks := by
  unfold finish_run
  dsimp only
  split_ifs <;> (dsimp only; rw [get_results_tasks])

end RunDb

/-- Claim C4 (amended): after `stop_run` every task of the run is
inactive and a task that is still pending carries no stats (it is a
chunk regenerated by the auto-purge); the unconditional `¬pending` of
the original claim fails on auto-purged runs. -/
theorem claim_C4_amended (cdf : ℝ → ℕ → ℝ)
    (fmt : Fishtest.TaskStats → Fishtest.Run → Fishtest.ResultsInfo)
    (run : Fishtest.Run) :
    ∀ t ∈ (RunDb.stop_run cdf fmt run).tasks,
      t.active = false ∧ (t.pending = true → t.stats = none) := by
  intro t ht
  have base := RunDb.clear_tasks_spec run
  have hcrr : ∀ t2 ∈ (Util.calculate_residuals cdf (RunDb.clear_tasks run)).2.tasks,
      t2.active = false ∧ t2.pending = false := by
    intro t2 ht2
    rw [Util.calculate_residuals_tasks] at ht2
    exact Util.residual_pass_cleared _ _ _ _ none base t2 ht2
  have hfromPurge : ∀ t2 ∈ (RunDb.purge_run cdf (RunDb.clear_tasks run)).2.tasks,
      t2.active = false ∧ (t2.pending = true → t2.stats = none) := by
    intro t2 ht2
    rcases RunDb.purge_run_tasks_cases cdf (RunDb.clear_tasks run) t2 ht2 with h1 | h2
    · obtain ⟨ha, hp⟩ := hcrr t2 h1
      refine ⟨ha, fun hpp => ?_⟩
      rw [hp] at hpp
      simp at hpp
    · exact ⟨h2.2.1, fun _ => h2.2.2⟩
  unfold RunDb.stop_run at ht
  dsimp only at ht
  by_cases hcond : ((RunDb.clear_tasks run).args.auto_purge
      && (RunDb.clear_tasks run).args.spsa.isNone) = true
  · rw [if_pos hcond] at ht
    by_cases hflag : (RunDb.purge_run cdf (RunDb.clear_tasks run)).1 = true
    · rw [if_pos hflag] at ht
      dsimp only at ht
      rw [RunDb.get_results_tasks] at ht
      exact hfromPurge t ht
    · rw [if_neg hflag] at ht
      rw [RunDb.finish_run_tasks] at ht
      exact hfromPurge t ht
  · rw [if_neg hcond] at ht
    dsimp only at ht
    rw [if_neg (by simp)] at ht
    rw [RunDb.finish_run_tasks] at ht
    obtain ⟨ha, hp⟩ := base t ht
    refine ⟨ha, fun hpp => ?_⟩
    rw [hp] at hpp
    simp at hpp

/-- A finished task of the C4 witness run: one game block with stats. -/
def taskC4w : Fishtest.Task :=
  { num_games := 200, pending := true, active := true,
    worker_info := some { username := "u", unique_key := "k", key := "w" },
    stats := some {} }

/-- The C4 witness run: auto-purge disabled, one task with stats. -/
def runC4w : Fishtest.Run :=
  { run_id := 5, args := { num_games := 200, auto_purge := false },
    tasks := [taskC4w], results_stale := false }

/-- The cleared form of the C4 witness task. -/
def taskC4wc : Fishtest.Task := { taskC4w with pending := false, active := false }

/-- Witness for the amended claim C4 at the concrete witness run. -/
theorem claim_C4_amended_witness :
    taskC4wc.active = false ∧ (taskC4wc.pending = true → taskC4wc.stats = none) :=
  claim_C4_amended cdf0 fmt0 runC4w taskC4wc (by
    have h : (RunDb.stop_run cdf0 fmt0 runC4w).tasks = [taskC4wc] := rfl
    rw [h]
    exact List.mem_singleton_self _)

/-- The crashing task of the C4 counterexample: worker `w` reported one
win and more than 3 crashes, then the run is stopped. -/
def taskC4 : Fishtest.Task :=
  { num_games := 200, pending := true, active := true,
    worker_info := some { username := "u", unique_key := "k", key := "w" },
    stats := some { wins := 1, crashes := 4 } }

/-- The C4 counterexample run: auto-purge enabled (the default), far
from its scheduled `num_games`, with the single crashing task. -/
def runC4 : Fishtest.Run :=
  { run_id := 4, args := { num_games := 1000 }, tasks := [taskC4],
    results_stale := true }

/-- The cleared form of the C4 task. -/
def taskC4c : Fishtest.Task := { taskC4 with pending := false, active := false }

/-- The annotated form of the cleared C4 task after the residual pass. -/
def taskC4a : Fishtest.Task :=
  { taskC4c with residual := 8, residual_color := "#FF6A6A" }

/-- The C4 run after the task clearing of `stop_run`. -/
def runC4s : Fishtest.Run :=
  { run_id := 4, args := { num_games := 1000 }, tasks := [taskC4c],
    results_stale := true }

lemma clear_tasks_runC4 : RunDb.clear_tasks runC4 = runC4s := rfl

/-- The cleared C4 run with its task annotated by `calculate_residuals`. -/
def runC4p : Fishtest.Run :=
  { run_id := 4, args := { num_games := 1000 }, tasks := [taskC4a],
    results_stale := true }

/-- The C4 run returned by the purge: the bad task moved to `bad_tasks`,
the results refreshed to zero and the full schedule regenerated. -/
def runC4fin : Fishtest.Run :=
  { run_id := 4, args := { num_games := 1000 },
    -- written in the shape produced by `reopen_run` (empty survivor list
    -- extended by the regenerated chunks for the unplayed games)
    tasks := [] ++ RunDb.generate_tasks (1000 - (0 + 0 + 0)),
    bad_tasks := [{ taskC4a with bad := true }],
    results_stale := false,
    results := { pentanomial := some [0, 0, 0, 0, 0] } }

lemma runC4fin_tasks : runC4fin.tasks = RunDb.generate_tasks 1000 := by
  simp only [runC4fin, List.nil_append]

/-- The residual pass on the cleared C4 run annotates the crash-override
residual `8.0` and reports worker `w` as worst. -/
lemma residual_pass_runC4 :
    Util.residual_pass Util.FV.nan [] [] runC4s.tasks none
      = ([taskC4a], some ("w", 8)) := by
  have htasks : runC4s.tasks = [taskC4c] := rfl
  rw [htasks]
  simp only [Util.residual_pass, Util.get_worker_key, taskC4c, taskC4,
    List.not_mem_nil, if_false, Util.effective_residual, Util.residual_of,
    List.find?_nil, Util.FV.lt, Util.residual_color_of, taskC4a]
  norm_num

/-- `calculate_residuals` on the cleared C4 run flags worker `w` and
returns the annotated task. -/
lemma calculate_residuals_runC4 :
    Util.calculate_residuals cdf0 runC4s
      = ({ chi2 := .nan, dof := 0, p := .nan, residual := [], bad_users := ["w"] },
         runC4p) := by
  have hchi : Util.get_chi2 cdf0 runC4s.tasks []
      = { chi2 := .nan, dof := 0, p := .nan, residual := [] } :=
    Util.get_chi2_one_worker cdf0 _ [] (by rfl)
  simp only [Util.calculate_residuals, hchi, residual_pass_runC4]
  rfl

/-- The auto-purge on the cleared C4 run fires, moves the flagged task
to `bad_tasks` and regenerates the full schedule of pending chunks. -/
lemma purge_run_runC4 :
    RunDb.purge_run cdf0 runC4s = (true, runC4fin) := by
  unfold RunDb.purge_run
  rw [calculate_residuals_runC4]
  rfl

/-- After stopping the C4 run, its task list is the freshly generated
schedule of 1000 games. -/
lemma stop_run_runC4_tasks :
    (RunDb.stop_run cdf0 fmt0 runC4).tasks = RunDb.generate_tasks 1000 := by
  unfold RunDb.stop_run
  dsimp only
  rw [clear_tasks_runC4]
  rw [if_pos (show (runC4s.args.auto_purge && runC4s.args.spsa.isNone) = true from rfl)]
  rw [purge_run_runC4]
  dsimp only
  rw [if_pos rfl]
  dsimp only
  rw [RunDb.get_results_tasks]
  exact runC4fin_tasks

/-- Claim C4 (counterexample): on a run whose auto-purge fires and whose
played games fall short of `num_games`, `stop_run` returns with freshly
regenerated pending chunks in the task list, so not every task satisfies
`¬pending` as the claim asserts. -/
theorem claim_C4_counterexample :
    ¬ ∀ t ∈ (RunDb.stop_run cdf0 fmt0 runC4).tasks,
        t.pending = false ∧ t.active = false := by
  intro h
  have hgen : RunDb.generate_tasks 1000
      = ({ num_games := 200, pending := true, active := false } : Fishtest.Task)
        :: RunDb.generate_tasks 800 := by
    rw [RunDb.generate_tasks, dif_neg (by norm_num)]
    rfl
  have hmem : ({ num_games := 200, pending := true, active := false } : Fishtest.Task)
      ∈ (RunDb.stop_run cdf0 fmt0 runC4).tasks := by
    rw [stop_run_runC4_tasks, hgen]
    exact List.mem_cons_self ..
  have hp := (h _ hmem).1
  simp at hp
